import Mathlib

/-!
Shallow embedding of `src/src/effects/EffectManager.ts`.

Timer-driven behaviour is embedded as explicit state passing: the manager and
per-editor state live in a `Sys` record, every entry point and every timer
callback of the source is a function `Sys → ... → Sys`, and the event loop is
the step relation `Step` (a timer callback may fire whenever its handle is
live and, for TTL one-shots, its scheduled time has passed).  Wall-clock time
is a `Nat` of milliseconds supplied monotonically by the environment.  Visual
payloads (SVG text labels, random colours, pixel geometry) influence no
control flow in the source and are not tracked; instead every
`editor.setDecorations` call is logged in `renders`.  The object identity of
the per-fire `DecorationOptions` value (used by the TTL callback through
`arr.findIndex(x => x.opt === opt)`) is embedded as a fresh numeric `id`
drawn from the counter `nextId`.
-/

namespace EffectManager

/-- Effect kinds, from `type EffectKind = "blip" | "boom" | "newline"`. -/
inductive EffectKind where
  | blip | boom | newline
deriving DecidableEq

/-- Total map over effect kinds, used for the per-kind record fields of the
source (`activeDecorations`, `buffers`, `animTimers`, ...). -/
structure KindMap (α : Type) where
  blip : α
  boom : α
  newline : α
deriving DecidableEq

def KindMap.get (m : KindMap α) : EffectKind → α
  | .blip => m.blip
  | .boom => m.boom
  | .newline => m.newline

def KindMap.set (m : KindMap α) : EffectKind → α → KindMap α
  | .blip, a => { m with blip := a }
  | .boom, a => { m with boom := a }
  | .newline, a => { m with newline := a }

def KindMap.const (a : α) : KindMap α := ⟨a, a, a⟩

/-- A `Rect2(x, y, w, h)` region.  Numeric fields come from `parseFloat` and
are embedded as rationals. -/
structure Rect where
  x : ℚ
  y : ℚ
  w : ℚ
  h : ℚ
deriving DecidableEq

/-- What the three regular expressions of `ensureSpriteData` extract from a
`<kind>.tscn` scene-description text: `atlas` lists the `AtlasTexture`
sub-resources in text order as `(id, region)`; `order` is the ordered list of
`SubResource("...")` references inside the `SpriteFrames` animations block
when that block is found; `speed` is the `"speed"` field when present. -/
structure SceneDesc where
  atlas : List (String × Rect)
  order : Option (List String)
  speed : Option ℚ
deriving DecidableEq

/-- Decoded sprite data for one kind.  `frameUris` of the source are pure
images of `frames` and are not duplicated here. -/
structure SpriteData where
  frames : List Rect
  sheetW : ℚ
  sheetH : ℚ
  fps : ℚ
deriving DecidableEq

/-- `Map.set` of JavaScript: replaces the value in place when the key is
already present, otherwise appends; insertion order is preserved. -/
def jsMapSet (m : List (String × Rect)) (k : String) (v : Rect) : List (String × Rect) :=
  if m.any (fun p => p.1 == k) then
    m.map (fun p => if p.1 = k then (k, v) else p)
  else m ++ [(k, v)]

/-- `Map.get`: value at the (first, hence unique) position of the key. -/
def mapGet (m : List (String × Rect)) (k : String) : Option Rect :=
  match m with
  | [] => none
  | p :: rest => if p.1 = k then some p.2 else mapGet rest k

/-- The `atlasMap` built by the loop over `atlasBlocks` (lines 295-301). -/
def buildAtlasMap (decls : List (String × Rect)) : List (String × Rect) :=
  decls.foldl (fun m p => jsMapSet m p.1 p.2) []

/-- Lines 294-324 of `ensureSpriteData`: resolve the ordered region
references, apply the `speed` default (24) and floor (1), fall back to atlas
declaration order when the ordered track is missing or resolves to nothing,
and compute the sheet bounds as maximal extents. -/
def decodeScene (d : SceneDesc) : SpriteData :=
  let atlasMap := buildAtlasMap d.atlas
  let framesOrder : List String := d.order.getD []
  let fps : ℚ :=
    match d.speed with
    | some s => max 1 s
    | none => 24
  let frames := framesOrder.filterMap (fun id => mapGet atlasMap id)
  let frames := if frames.isEmpty && !atlasMap.isEmpty then atlasMap.map (fun p => p.2) else frames
  let sheetW := frames.foldl (fun acc f => max acc (f.x + f.w)) 0
  let sheetH := frames.foldl (fun acc f => max acc (f.y + f.h)) 0
  { frames := frames, sheetW := sheetW, sheetH := sheetH, fps := fps }

/-- `ensureSpriteData` (lines 286-334): memoised per kind.  It returns
immediately when the kind is already decoded; otherwise it reads and decodes
the asset and stores the result in the process-wide cache. -/
def ensureSpriteData (cache : KindMap (Option SpriteData)) (k : EffectKind)
    (asset : SceneDesc) : KindMap (Option SpriteData) :=
  if (cache.get k).isSome then cache
  else cache.set k (some (decodeScene asset))

/-- Configuration values as read through `getComboConfig`/`getTtl`/`shake`
(after their `Math.max` clamps).  Defaults mirror the source. -/
structure Config where
  maxTrail : Nat := 5
  ttlBlipMs : Nat := 400
  ttlBoomMs : Nat := 650
  ttlNewlineMs : Nat := 350
  shakeDecayMs : Nat := 120
deriving DecidableEq

/-- `getTtl` (lines 171-174). -/
def getTtl (cfg : Config) : EffectKind → Nat
  | .boom => cfg.ttlBoomMs
  | .blip => cfg.ttlBlipMs
  | .newline => cfg.ttlNewlineMs

/-- `MAX_DECORATIONS_PER_TYPE` (line 47).  `canAddDecoration` reads this
constant directly; no configuration value overrides it. -/
def MAX_DECORATIONS_PER_TYPE : Int := 5

/-- One buffered decoration instance `{ opt, createdAt }`; `id` embeds the
object identity of `opt`. -/
structure Entry where
  id : Nat
  createdAt : Nat
deriving DecidableEq

/-- One `editor.setDecorations` call, by decoration type and content. -/
inductive RenderCall where
  | combo (k : EffectKind) (ids : List Nat)
  | jitterClear
  | sprite (k : EffectKind) (frame : Nat)
  | spriteClear
deriving DecidableEq

/-- `EditorState` (lines 7-20), minus the shake fields which live on `Sys`
so that every function can be written uniformly on one state record. -/
structure EditorState where
  lastBlipAt : Nat
  lastBoomAt : Nat
  activeDecorations : KindMap Int
  buffers : KindMap (List Entry)
  animTimers : KindMap Bool
deriving DecidableEq

/-- The whole mutable world for one manager and one editor: the editor state,
the process-wide sprite cache, the `runningSpriteAnim` entry for this editor,
the shake fields, and the live timer callbacks.  `animSched.get k` counts the
scheduled (not yet fired, not cancelled) combo-tick callbacks for kind `k`;
`ttlPending` lists the scheduled TTL one-shots as `(kind, entry id, fire
time)`; `spriteMap` maps a kind to `some i` when a sprite frame-step timer
with next frame index `i` is pending.  `animDeco` is the current content of
the shared `animDecoration` layer. -/
structure Sys where
  now : Nat
  nextId : Nat
  es : EditorState
  ttlPending : List (EffectKind × Nat × Nat)
  animSched : KindMap Nat
  spriteCache : KindMap (Option SpriteData)
  spriteMap : Option (KindMap (Option Nat))
  animDeco : Option (EffectKind × Nat)
  shakeEndAt : Option Nat
  shakeTimer : Bool
  renders : List RenderCall
deriving DecidableEq

/-- `canAddDecoration` (lines 248-251). -/
def canAddDecoration (s : Sys) (k : EffectKind) : Bool :=
  s.es.activeDecorations.get k < MAX_DECORATIONS_PER_TYPE

/-- `ensureAnimating` (lines 176-219): a no-op when a combo animation timer
handle for this kind already exists, otherwise stores a handle and schedules
the first tick. -/
def ensureAnimating (s : Sys) (k : EffectKind) : Sys :=
  if s.es.animTimers.get k then s
  else
    { s with
      es := { s.es with animTimers := s.es.animTimers.set k true },
      animSched := s.animSched.set k (s.animSched.get k + 1) }

/-- The `tick` closure of `ensureAnimating` (lines 181-216), fired at `now`.
The fired callback is consumed from `animSched`.  On an empty buffer the tick
clears its own (already fired) handle and does not reschedule; otherwise it
mutates the per-item transforms (visual only), re-renders the whole buffer
and reschedules itself. -/
def animTick (s : Sys) (k : EffectKind) (now : Nat) : Sys :=
  let s := { s with now := now, animSched := s.animSched.set k (s.animSched.get k - 1) }
  let buf := s.es.buffers.get k
  if buf.isEmpty then
    { s with es := { s.es with animTimers := s.es.animTimers.set k false } }
  else
    { s with
      renders := s.renders ++ [RenderCall.combo k (buf.map Entry.id)],
      animSched := s.animSched.set k (s.animSched.get k + 1) }

/-- Lines 465-470 of `applyOnce`: `buffer.push(...)` followed by the
`buffer.shift()` eviction when the length exceeds
`cap = max(maxTrail, MAX_DECORATIONS_PER_TYPE)`. -/
def pushCap (cfg : Config) (l : List Entry) (e : Entry) : List Entry :=
  let buf0 := l ++ [e]
  let cap := max cfg.maxTrail MAX_DECORATIONS_PER_TYPE.toNat
  if cap < buf0.length then buf0.drop 1 else buf0

/-- `applyOnce` (lines 436-494), minus the scheduled TTL callback which is
the separate `ttlCallback` below.  Rejects silently when the concurrency cap
is reached; otherwise builds the decoration `opt` (visual content elided, a
fresh `id` embeds its identity), pushes `{opt, createdAt: now}`, evicts the
front entry when the buffer exceeds the cap, re-renders the whole buffer,
starts the animator, increments the active count and schedules the TTL
one-shot. -/
def applyOnce (cfg : Config) (s : Sys) (k : EffectKind) : Sys :=
  if canAddDecoration s k then
    let e : Entry := { id := s.nextId, createdAt := s.now }
    let buf := pushCap cfg (s.es.buffers.get k) e
    let s1 : Sys :=
      { s with
        nextId := s.nextId + 1,
        es := { s.es with buffers := s.es.buffers.set k buf },
        renders := s.renders ++ [RenderCall.combo k (buf.map Entry.id)] }
    let s2 := ensureAnimating s1 k
    let s3 : Sys :=
      { s2 with
        es := { s2.es with
          activeDecorations :=
            s2.es.activeDecorations.set k (s2.es.activeDecorations.get k + 1) } }
    { s3 with ttlPending := s3.ttlPending ++ [(k, e.id, s.now + getTtl cfg k)] }
  else s

/-- `Array.prototype.findIndex`: index of the first element satisfying the
predicate (`none` embeds the `-1` result). -/
def findIndex (p : Entry → Bool) : List Entry → Option Nat
  | [] => none
  | a :: rest => if p a then some 0 else (findIndex p rest).map (· + 1)

/-- The body of the TTL `setTimeout` of `applyOnce` (lines 480-493), wrapped
in `try { ... } catch { }`.  `renderOk` is false when the editor has become
invalid, in which case `editor.setDecorations` throws and the catch swallows
the rest of the body.  The entry is looked up by identity
(`x.opt === opt`); the active count is decremented floored at zero, also
when the entry is no longer in the buffer. -/
def ttlCallback (renderOk : Bool) (s : Sys) (k : EffectKind) (eid : Nat) : Sys :=
  let arr := s.es.buffers.get k
  match findIndex (fun e => e.id == eid) arr with
  | some i =>
    let arr2 := arr.eraseIdx i
    let s1 : Sys := { s with es := { s.es with buffers := s.es.buffers.set k arr2 } }
    if renderOk then
      { s1 with
        renders := s1.renders ++ [RenderCall.combo k (arr2.map Entry.id)],
        es := { s1.es with
          activeDecorations :=
            s1.es.activeDecorations.set k
              (max 0 (s1.es.activeDecorations.get k - 1)) } }
    else s1
  | none =>
    { s with
      es := { s.es with
        activeDecorations :=
          s.es.activeDecorations.set k (max 0 (s.es.activeDecorations.get k - 1)) } }

/-- Firing of a scheduled TTL one-shot at time `now` on a valid editor: the
pending record is consumed and the callback body runs. -/
def ttlFire (s : Sys) (k : EffectKind) (eid : Nat) (now : Nat) : Sys :=
  let s := { s with
    now := now,
    ttlPending := s.ttlPending.eraseP (fun p => p.1 == k && p.2.1 == eid) }
  ttlCallback true s k eid

/-- `clearSpriteAnim` (lines 336-347).  With no kind: cancels the frame
timers of every kind and deletes the editor's `runningSpriteAnim` entry; the
decoration is cleared only when a specific kind is passed. -/
def clearSpriteAnim (s : Sys) (kopt : Option EffectKind) : Sys :=
  match s.spriteMap with
  | none => s
  | some m =>
    let kinds : List EffectKind :=
      match kopt with
      | some k => [k]
      | none => [.blip, .boom, .newline]
    let m2 := kinds.foldl (fun acc k => acc.set k none) m
    let s1 : Sys :=
      match kopt with
      | none => { s with spriteMap := none }
      | some _ => { s with spriteMap := some m2 }
    match kopt with
    | some _ => { s1 with animDeco := none, renders := s1.renders ++ [RenderCall.spriteClear] }
    | none => s1

/-- `playSpriteAnim` (lines 349-434): ensures the sprite is decoded, returns
silently when the decoded data has no frames, otherwise cancels any running
frame timer for this kind and runs the first `step()` synchronously, which
renders frame 0 on the shared `animDecoration` layer and schedules the next
step with index 1.  Frame geometry and the per-kind sizing are visual only
and elided. -/
def playSpriteAnim (s : Sys) (k : EffectKind) (asset : SceneDesc) : Sys :=
  let cache := ensureSpriteData s.spriteCache k asset
  let s := { s with spriteCache := cache }
  match cache.get k with
  | none => s
  | some data =>
    if data.frames.isEmpty then s
    else
      let m := s.spriteMap.getD (KindMap.const none)
      let m := m.set k none
      let m := m.set k (some 1)
      { s with
        spriteMap := some m,
        animDeco := some (k, 0),
        renders := s.renders ++ [RenderCall.sprite k 0] }

/-- The `step` closure of `playSpriteAnim` fired from its frame timer: when
the frame index has passed the last frame it clears the decoration and
removes the run entry, otherwise it renders the frame and reschedules. -/
def spriteStep (s : Sys) (k : EffectKind) (now : Nat) : Sys :=
  match s.spriteMap with
  | none => s
  | some m =>
    match m.get k with
    | none => s
    | some i =>
      match s.spriteCache.get k with
      | none => s
      | some data =>
        let total := data.frames.length
        if total ≤ i then
          { s with
            now := now,
            spriteMap := some (m.set k none),
            animDeco := none,
            renders := s.renders ++ [RenderCall.spriteClear] }
        else
          { s with
            now := now,
            spriteMap := some (m.set k (some (i + 1))),
            animDeco := some (k, i),
            renders := s.renders ++ [RenderCall.sprite k i] }

/-- `shake` (lines 496-578): extends the deadline to
`max(shakeEndAt ?? 0, now + max(extendMs, max(20, shakeDecayMs)))` and, when
no shake loop is running, runs `applyShake` once, which (since the new
deadline is in the future) applies a random displacement (visual, untracked)
and schedules itself. -/
def shake (cfg : Config) (s : Sys) (extendMs : Nat) : Sys :=
  let decayMs := max 20 cfg.shakeDecayMs
  let maxExtend := max extendMs decayMs
  let s := { s with shakeEndAt := some (max (s.shakeEndAt.getD 0) (s.now + maxExtend)) }
  if s.shakeTimer then s else { s with shakeTimer := true }

/-- The `applyShake` loop body fired from its timer: past the deadline it
clears the displacement decoration and stops; otherwise it applies a fresh
random displacement (visual, untracked) and reschedules. -/
def shakeTick (s : Sys) (now : Nat) : Sys :=
  let s := { s with now := now }
  match s.shakeEndAt with
  | none => { s with shakeTimer := false }
  | some e => if e < now then { s with shakeTimer := false } else s

/-- `showBlip` (lines 580-592).  The label argument only selects the visual
payload of `applyOnce` and is elided. -/
def showBlip (cfg : Config) (assets : KindMap SceneDesc) (s : Sys) (now : Nat)
    (shakeFlag : Bool) : Sys :=
  let s := { s with now := now }
  let s :=
    if 20 ≤ now - s.es.lastBlipAt then
      let s := { s with es := { s.es with lastBlipAt := now } }
      let s := clearSpriteAnim s none
      let s := applyOnce cfg s .blip
      playSpriteAnim s .blip (assets.get .blip)
    else s
  if shakeFlag then shake cfg s 120 else s

/-- `showBoom` (lines 594-606). -/
def showBoom (cfg : Config) (assets : KindMap SceneDesc) (s : Sys) (now : Nat)
    (shakeFlag : Bool) : Sys :=
  let s := { s with now := now }
  let s :=
    if 100 ≤ now - s.es.lastBoomAt then
      let s := { s with es := { s.es with lastBoomAt := now } }
      let s := clearSpriteAnim s none
      let s := applyOnce cfg s .boom
      playSpriteAnim s .boom (assets.get .boom)
    else s
  if shakeFlag then shake cfg s 180 else s

/-- `showNewline` (lines 608-613): no rate limit. -/
def showNewline (cfg : Config) (assets : KindMap SceneDesc) (s : Sys) (now : Nat)
    (shakeFlag : Bool) : Sys :=
  let s := { s with now := now }
  let s := clearSpriteAnim s none
  let s := applyOnce cfg s .newline
  let s := playSpriteAnim s .newline (assets.get .newline)
  if shakeFlag then shake cfg s 140 else s

/-- `clearTimeout(state.animTimers[k])` inside `clearAllDecorations`: when a
handle is stored its pending tick callback is cancelled. -/
def cancelAnim (timers : KindMap Bool) (sched : KindMap Nat) (k : EffectKind) : KindMap Nat :=
  if timers.get k then sched.set k (sched.get k - 1) else sched

/-- `clearAllDecorations` (lines 616-637) on a valid editor: empties the
three combo layers and the two jitter layers, zeroes the active counts,
empties the buffers and cancels the combo animation timers.  `lastBlipAt`,
`lastBoomAt`, the sprite run timers, the shake state and the pending TTL
one-shots are not touched. -/
def clearAllDecorations (s : Sys) (now : Nat) : Sys :=
  let sched1 := cancelAnim s.es.animTimers s.animSched .blip
  let sched2 := cancelAnim s.es.animTimers sched1 .boom
  let sched3 := cancelAnim s.es.animTimers sched2 .newline
  { s with
    now := now,
    renders := s.renders ++
      [RenderCall.combo .blip [], RenderCall.combo .boom [], RenderCall.combo .newline [],
       RenderCall.jitterClear, RenderCall.jitterClear],
    es := { s.es with
      activeDecorations := KindMap.const 0,
      buffers := KindMap.const [],
      animTimers := KindMap.const false },
    animSched := sched3 }

/-- The freshly created editor state of `getEditorState` (lines 114-131) and
an otherwise empty world. -/
def init : Sys :=
  { now := 0, nextId := 0,
    es :=
      { lastBlipAt := 0, lastBoomAt := 0,
        activeDecorations := KindMap.const 0,
        buffers := KindMap.const [],
        animTimers := KindMap.const false },
    ttlPending := [], animSched := KindMap.const 0,
    spriteCache := KindMap.const none, spriteMap := none,
    animDeco := none, shakeEndAt := none, shakeTimer := false, renders := [] }

/-- The event loop: an entry point is invoked, or a live timer callback
fires.  Time never goes backwards; a TTL one-shot fires no earlier than its
scheduled time. -/
inductive Step (cfg : Config) (assets : KindMap SceneDesc) : Sys → Sys → Prop
  | blipFire (s : Sys) (now : Nat) (flag : Bool) (h : s.now ≤ now) :
      Step cfg assets s (showBlip cfg assets s now flag)
  | boomFire (s : Sys) (now : Nat) (flag : Bool) (h : s.now ≤ now) :
      Step cfg assets s (showBoom cfg assets s now flag)
  | newlineFire (s : Sys) (now : Nat) (flag : Bool) (h : s.now ≤ now) :
      Step cfg assets s (showNewline cfg assets s now flag)
  | clearAll (s : Sys) (now : Nat) (h : s.now ≤ now) :
      Step cfg assets s (clearAllDecorations s now)
  | anim (s : Sys) (k : EffectKind) (now : Nat) (h : s.now ≤ now)
      (hl : 1 ≤ s.animSched.get k) :
      Step cfg assets s (animTick s k now)
  | ttl (s : Sys) (k : EffectKind) (eid t now : Nat) (h : s.now ≤ now)
      (ht : t ≤ now) (hm : (k, eid, t) ∈ s.ttlPending) :
      Step cfg assets s (ttlFire s k eid now)
  | sprite (s : Sys) (k : EffectKind) (i : Nat) (now : Nat) (h : s.now ≤ now)
      (m : KindMap (Option Nat)) (hm : s.spriteMap = some m) (hk : m.get k = some i) :
      Step cfg assets s (spriteStep s k now)
  | shakeT (s : Sys) (now : Nat) (h : s.now ≤ now) (hs : s.shakeTimer = true) :
      Step cfg assets s (shakeTick s now)

/-- States reachable from the freshly created editor state. -/
inductive Reachable (cfg : Config) (assets : KindMap SceneDesc) : Sys → Prop
  | init : Reachable cfg assets init
  | step {s t : Sys} : Reachable cfg assets s → Step cfg assets s t → Reachable cfg assets t

/-- Default configuration. -/
def cfg0 : Config := {}

/-- An asset set whose scene descriptions contain no region declarations:
every sprite decodes to zero frames, so `playSpriteAnim` renders nothing. -/
def assets0 : KindMap SceneDesc := KindMap.const { atlas := [], order := none, speed := none }

/-- The identities of the buffered entries of a kind. -/
def bufferIds (s : Sys) (k : EffectKind) : List Nat := (s.es.buffers.get k).map Entry.id

/-- The identities of the entries with a scheduled TTL one-shot. -/
def pendingIds (s : Sys) : List Nat := s.ttlPending.map (fun p => p.2.1)

/-- State invariant maintained by every event: active counts are between 0
and `MAX_DECORATIONS_PER_TYPE`; buffers never exceed the trail cap; there is
exactly one scheduled combo tick per stored animation timer handle (and none
otherwise); scheduled TTL one-shots and buffered entries carry pairwise
distinct identities below the freshness counter. -/
def goodSys (cfg : Config) (s : Sys) : Prop :=
  (∀ k, 0 ≤ s.es.activeDecorations.get k ∧
        s.es.activeDecorations.get k ≤ MAX_DECORATIONS_PER_TYPE) ∧
  (∀ k, (s.es.buffers.get k).length ≤ max cfg.maxTrail MAX_DECORATIONS_PER_TYPE.toNat) ∧
  (∀ k, s.animSched.get k = if s.es.animTimers.get k then 1 else 0) ∧
  (pendingIds s).Nodup ∧
  (∀ p ∈ s.ttlPending, p.2.1 < s.nextId) ∧
  (∀ k, (bufferIds s k).Nodup) ∧
  (∀ k, ∀ e ∈ s.es.buffers.get k, e.id < s.nextId)

/-- A `showBlip` invocation with default configuration, inert sprite assets,
no label and no shake, used by the concrete traces below. -/
def fireB (s : Sys) (now : Nat) : Sys := showBlip cfg0 assets0 s now false

/-- Trace for C1: one accepted blip at t=1000, then `clearAllDecorations` at
t=1005. -/
def cexC1a : Sys := fireB init 1000

def cexC1b : Sys := clearAllDecorations cexC1a 1005

/-- A blip fired at t=1010, 10 ms after the accepted pre-clear blip. -/
def cexC1c : Sys := fireB cexC1b 1010

/-- Trace for C2, first half: five accepted blips fill the buffer
(entries 0-4), `clearAllDecorations` resets the count, five more accepted
blips refill it (entries 5-9). -/
def cexC2mid : Sys :=
  fireB (fireB (fireB (fireB (fireB
    (clearAllDecorations
      (fireB (fireB (fireB (fireB (fireB init 1000) 1020) 1040) 1060) 1080)
      1100)
    1120) 1140) 1160) 1180) 1200

/-- Trace for C2, second half: the five stale TTL one-shots of entries 0-4
fire (each misses the buffer but decrements the count to 0), then a sixth
blip at t=1500 pushes entry 10 and FIFO-evicts entry 5, whose own TTL
one-shot (scheduled for t=1520) is still pending. -/
def cexC2pre : Sys :=
  fireB
    (ttlFire (ttlFire (ttlFire (ttlFire (ttlFire cexC2mid .blip 0 1400)
      .blip 1 1420) .blip 2 1440) .blip 3 1460) .blip 4 1480)
    1500

/-- A one-region scene description with no `SpriteFrames` block found, so the
decoder falls back to atlas order and yields one frame. -/
def descOneFrame : SceneDesc :=
  { atlas := [("a", { x := 0, y := 0, w := 8, h := 8 })], order := none, speed := some 10 }

/-- Assets whose blip sprite has one frame. -/
def assetsB : KindMap SceneDesc :=
  (KindMap.const { atlas := [], order := none, speed := none }).set .blip descOneFrame

/-- Trace for C6: an accepted blip at t=1000 starts a blip sprite run; frame
0 is rendered on the `animDecoration` layer and a frame timer is pending. -/
def cexC6a : Sys := showBlip cfg0 assetsB init 1000 false

/-- The cross-kind clear that every entry point performs. -/
def cexC6b : Sys := clearSpriteAnim cexC6a none

/-- A state whose blip buffer is at the cap while the active count is 0
(as arises after `clearAllDecorations` with stale TTL one-shots, compare
`cexC2pre`); used to exercise the FIFO eviction branch of `applyOnce`. -/
def fullBufferSys : Sys :=
  { init with
    nextId := 5,
    es := { init.es with
      buffers := (KindMap.const []).set .blip
        [{ id := 0, createdAt := 0 }, { id := 1, createdAt := 0 },
         { id := 2, createdAt := 0 }, { id := 3, createdAt := 0 },
         { id := 4, createdAt := 0 }] } }

end EffectManager

namespace EffectManager

/-! ### Basic lemmas about `KindMap` -/

theorem KindMap.get_set {α : Type} (m : KindMap α) (k k' : EffectKind) (a : α) :
    (m.set k a).get k' = if k' = k then a else m.get k' := by
  cases k <;> cases k' <;> simp [KindMap.get, KindMap.set]

@[simp] theorem KindMap.get_set_self {α : Type} (m : KindMap α) (k : EffectKind) (a : α) :
    (m.set k a).get k = a := by
  cases k <;> rfl

theorem KindMap.get_set_ne {α : Type} (m : KindMap α) {k k' : EffectKind} (a : α)
    (h : k' ≠ k) : (m.set k a).get k' = m.get k' := by
  simp [KindMap.get_set, h]

@[simp] theorem KindMap.get_const {α : Type} (a : α) (k : EffectKind) :
    (KindMap.const a).get k = a := by
  cases k <;> rfl

/-! ### Frame lemmas: fields each operation leaves untouched -/

theorem clearSpriteAnim_frame (s : Sys) (o : Option EffectKind) :
    (clearSpriteAnim s o).es = s.es ∧
    (clearSpriteAnim s o).animSched = s.animSched ∧
    (clearSpriteAnim s o).ttlPending = s.ttlPending ∧
    (clearSpriteAnim s o).nextId = s.nextId ∧
    (clearSpriteAnim s o).now = s.now ∧
    (clearSpriteAnim s o).shakeEndAt = s.shakeEndAt ∧
    (clearSpriteAnim s o).shakeTimer = s.shakeTimer ∧
    (clearSpriteAnim s o).spriteCache = s.spriteCache := by
  unfold clearSpriteAnim
  cases hm : s.spriteMap <;> cases o <;> simp

theorem playSpriteAnim_frame (s : Sys) (k : EffectKind) (a : SceneDesc) :
    (playSpriteAnim s k a).es = s.es ∧
    (playSpriteAnim s k a).animSched = s.animSched ∧
    (playSpriteAnim s k a).ttlPending = s.ttlPending ∧
    (playSpriteAnim s k a).nextId = s.nextId ∧
    (playSpriteAnim s k a).now = s.now ∧
    (playSpriteAnim s k a).shakeEndAt = s.shakeEndAt ∧
    (playSpriteAnim s k a).shakeTimer = s.shakeTimer := by
  simp only [playSpriteAnim]
  cases hd : (ensureSpriteData s.spriteCache k a).get k
  · simp
  · simp only []
    split <;> simp

theorem shake_frame (cfg : Config) (s : Sys) (e : Nat) :
    (shake cfg s e).es = s.es ∧
    (shake cfg s e).animSched = s.animSched ∧
    (shake cfg s e).ttlPending = s.ttlPending ∧
    (shake cfg s e).nextId = s.nextId ∧
    (shake cfg s e).now = s.now ∧
    (shake cfg s e).spriteMap = s.spriteMap ∧
    (shake cfg s e).animDeco = s.animDeco ∧
    (shake cfg s e).renders = s.renders ∧
    (shake cfg s e).spriteCache = s.spriteCache := by
  simp only [shake]
  split <;> simp

theorem shakeTick_frame (s : Sys) (now : Nat) :
    (shakeTick s now).es = s.es ∧
    (shakeTick s now).animSched = s.animSched ∧
    (shakeTick s now).ttlPending = s.ttlPending ∧
    (shakeTick s now).nextId = s.nextId ∧
    (shakeTick s now).renders = s.renders ∧
    (shakeTick s now).spriteMap = s.spriteMap := by
  simp only [shakeTick]
  cases he : s.shakeEndAt
  · simp
  · simp only []
    split <;> simp

theorem spriteStep_frame (s : Sys) (k : EffectKind) (now : Nat) :
    (spriteStep s k now).es = s.es ∧
    (spriteStep s k now).animSched = s.animSched ∧
    (spriteStep s k now).ttlPending = s.ttlPending ∧
    (spriteStep s k now).nextId = s.nextId ∧
    (spriteStep s k now).spriteCache = s.spriteCache ∧
    (spriteStep s k now).shakeEndAt = s.shakeEndAt ∧
    (spriteStep s k now).shakeTimer = s.shakeTimer := by
  unfold spriteStep
  cases hm : s.spriteMap with
  | none => simp
  | some m =>
    cases hk : m.get k with
    | none => simp [hk]
    | some i =>
      cases hd : s.spriteCache.get k with
      | none => simp [hk, hd]
      | some data =>
        simp only [hk, hd]
        split <;> simp

theorem ensureAnimating_frame (s : Sys) (k : EffectKind) :
    (ensureAnimating s k).es.activeDecorations = s.es.activeDecorations ∧
    (ensureAnimating s k).es.buffers = s.es.buffers ∧
    (ensureAnimating s k).es.lastBlipAt = s.es.lastBlipAt ∧
    (ensureAnimating s k).es.lastBoomAt = s.es.lastBoomAt ∧
    (ensureAnimating s k).ttlPending = s.ttlPending ∧
    (ensureAnimating s k).nextId = s.nextId ∧
    (ensureAnimating s k).now = s.now ∧
    (ensureAnimating s k).renders = s.renders ∧
    (ensureAnimating s k).spriteMap = s.spriteMap ∧
    (ensureAnimating s k).animDeco = s.animDeco ∧
    (ensureAnimating s k).spriteCache = s.spriteCache ∧
    (ensureAnimating s k).shakeEndAt = s.shakeEndAt ∧
    (ensureAnimating s k).shakeTimer = s.shakeTimer := by
  unfold ensureAnimating
  split <;> simp

theorem ensureAnimating_timers_get (s : Sys) (k k' : EffectKind) :
    (ensureAnimating s k).es.animTimers.get k' =
      if k' = k then true else s.es.animTimers.get k' := by
  unfold ensureAnimating
  split
  · rename_i h
    by_cases hk : k' = k
    · subst hk; simp [h]
    · simp [hk]
  · simp [KindMap.get_set]

theorem ensureAnimating_sched_get (s : Sys) (k k' : EffectKind) :
    (ensureAnimating s k).animSched.get k' =
      if k' = k ∧ s.es.animTimers.get k = false then s.animSched.get k + 1
      else s.animSched.get k' := by
  unfold ensureAnimating
  split
  · rename_i h
    simp [h]
  · rename_i h
    simp only [Bool.not_eq_true] at h
    by_cases hk : k' = k
    · subst hk; simp [h, KindMap.get_set]
    · simp [hk, KindMap.get_set, h]

end EffectManager

namespace EffectManager

/-! ### Characterisation of `pushCap` -/

theorem pushCap_length_le (cfg : Config) (l : List Entry) (e : Entry)
    (h : l.length ≤ max cfg.maxTrail MAX_DECORATIONS_PER_TYPE.toNat) :
    (pushCap cfg l e).length ≤ max cfg.maxTrail MAX_DECORATIONS_PER_TYPE.toNat := by
  simp only [pushCap]
  split
  · rename_i hlt
    simpa using h
  · rename_i hlt
    simp only [not_lt] at hlt
    simpa using hlt

theorem pushCap_eq_of_lt (cfg : Config) (l : List Entry) (e : Entry)
    (h : l.length < max cfg.maxTrail MAX_DECORATIONS_PER_TYPE.toNat) :
    pushCap cfg l e = l ++ [e] := by
  simp only [pushCap]
  rw [if_neg]
  simp
  omega

theorem pushCap_eq_of_full (cfg : Config) (l : List Entry) (e : Entry)
    (h : l.length = max cfg.maxTrail MAX_DECORATIONS_PER_TYPE.toNat) :
    pushCap cfg l e = l.drop 1 ++ [e] := by
  have hcap : 1 ≤ max cfg.maxTrail MAX_DECORATIONS_PER_TYPE.toNat := by
    have : (MAX_DECORATIONS_PER_TYPE.toNat) = 5 := by decide
    omega
  simp only [pushCap]
  rw [if_pos]
  · exact List.drop_append_of_le_length (by omega)
  · simp
    omega

theorem pushCap_sublist_append (cfg : Config) (l : List Entry) (e : Entry) :
    (pushCap cfg l e).Sublist (l ++ [e]) := by
  simp only [pushCap]
  split
  · exact (l ++ [e]).drop_sublist 1
  · exact List.Sublist.refl _

/-! ### Characterisation of `applyOnce` -/

theorem applyOnce_not (cfg : Config) (s : Sys) (k : EffectKind)
    (h : ¬ canAddDecoration s k = true) : applyOnce cfg s k = s := by
  simp [applyOnce, h]

theorem applyOnce_nextId (cfg : Config) (s : Sys) (k : EffectKind)
    (h : canAddDecoration s k = true) :
    (applyOnce cfg s k).nextId = s.nextId + 1 := by
  simp [applyOnce, h, ensureAnimating_frame]

theorem applyOnce_pending (cfg : Config) (s : Sys) (k : EffectKind)
    (h : canAddDecoration s k = true) :
    (applyOnce cfg s k).ttlPending =
      s.ttlPending ++ [(k, s.nextId, s.now + getTtl cfg k)] := by
  simp [applyOnce, h, ensureAnimating_frame]

theorem applyOnce_buffers_get (cfg : Config) (s : Sys) (k k' : EffectKind)
    (h : canAddDecoration s k = true) :
    (applyOnce cfg s k).es.buffers.get k' =
      if k' = k then pushCap cfg (s.es.buffers.get k) { id := s.nextId, createdAt := s.now }
      else s.es.buffers.get k' := by
  simp [applyOnce, h, ensureAnimating_frame, KindMap.get_set]

theorem applyOnce_active_get (cfg : Config) (s : Sys) (k k' : EffectKind)
    (h : canAddDecoration s k = true) :
    (applyOnce cfg s k).es.activeDecorations.get k' =
      if k' = k then s.es.activeDecorations.get k + 1
      else s.es.activeDecorations.get k' := by
  simp [applyOnce, h, ensureAnimating_frame, KindMap.get_set]

theorem applyOnce_timers_get (cfg : Config) (s : Sys) (k k' : EffectKind)
    (h : canAddDecoration s k = true) :
    (applyOnce cfg s k).es.animTimers.get k' =
      if k' = k then true else s.es.animTimers.get k' := by
  simp [applyOnce, h, ensureAnimating_timers_get]

theorem applyOnce_sched_get (cfg : Config) (s : Sys) (k k' : EffectKind)
    (h : canAddDecoration s k = true) :
    (applyOnce cfg s k).animSched.get k' =
      if k' = k ∧ s.es.animTimers.get k = false then s.animSched.get k + 1
      else s.animSched.get k' := by
  simp [applyOnce, h, ensureAnimating_sched_get]

theorem applyOnce_renders (cfg : Config) (s : Sys) (k : EffectKind)
    (h : canAddDecoration s k = true) :
    (applyOnce cfg s k).renders =
      s.renders ++ [RenderCall.combo k
        ((pushCap cfg (s.es.buffers.get k) { id := s.nextId, createdAt := s.now }).map Entry.id)] := by
  simp [applyOnce, h, ensureAnimating_frame]

theorem applyOnce_frame (cfg : Config) (s : Sys) (k : EffectKind) :
    (applyOnce cfg s k).es.lastBlipAt = s.es.lastBlipAt ∧
    (applyOnce cfg s k).es.lastBoomAt = s.es.lastBoomAt ∧
    (applyOnce cfg s k).now = s.now ∧
    (applyOnce cfg s k).spriteMap = s.spriteMap ∧
    (applyOnce cfg s k).animDeco = s.animDeco ∧
    (applyOnce cfg s k).spriteCache = s.spriteCache ∧
    (applyOnce cfg s k).shakeEndAt = s.shakeEndAt ∧
    (applyOnce cfg s k).shakeTimer = s.shakeTimer := by
  by_cases h : canAddDecoration s k = true <;>
    simp [applyOnce, h, ensureAnimating_frame]

/-! ### Characterisation of `ttlCallback` and `ttlFire` -/

theorem ttlCallback_frame (r : Bool) (s : Sys) (k : EffectKind) (eid : Nat) :
    (ttlCallback r s k eid).es.lastBlipAt = s.es.lastBlipAt ∧
    (ttlCallback r s k eid).es.lastBoomAt = s.es.lastBoomAt ∧
    (ttlCallback r s k eid).es.animTimers = s.es.animTimers ∧
    (ttlCallback r s k eid).animSched = s.animSched ∧
    (ttlCallback r s k eid).ttlPending = s.ttlPending ∧
    (ttlCallback r s k eid).nextId = s.nextId ∧
    (ttlCallback r s k eid).now = s.now ∧
    (ttlCallback r s k eid).spriteMap = s.spriteMap ∧
    (ttlCallback r s k eid).animDeco = s.animDeco ∧
    (ttlCallback r s k eid).spriteCache = s.spriteCache ∧
    (ttlCallback r s k eid).shakeEndAt = s.shakeEndAt ∧
    (ttlCallback r s k eid).shakeTimer = s.shakeTimer := by
  unfold ttlCallback
  cases hf : findIndex (fun e => e.id == eid) (s.es.buffers.get k) <;>
    cases r <;> simp [hf]

theorem ttlCallback_active_get_true (s : Sys) (k : EffectKind) (eid : Nat) :
    (ttlCallback true s k eid).es.activeDecorations.get k =
      max 0 (s.es.activeDecorations.get k - 1) := by
  unfold ttlCallback
  cases hf : findIndex (fun e => e.id == eid) (s.es.buffers.get k) <;> simp [hf]

theorem ttlCallback_active_get_ne (r : Bool) (s : Sys) (k k' : EffectKind) (eid : Nat)
    (h : k' ≠ k) :
    (ttlCallback r s k eid).es.activeDecorations.get k' =
      s.es.activeDecorations.get k' := by
  unfold ttlCallback
  cases hf : findIndex (fun e => e.id == eid) (s.es.buffers.get k) <;>
    cases r <;> simp [hf, KindMap.get_set, h]

theorem ttlCallback_buffers_sublist (r : Bool) (s : Sys) (k k' : EffectKind) (eid : Nat) :
    ((ttlCallback r s k eid).es.buffers.get k').Sublist (s.es.buffers.get k') := by
  unfold ttlCallback
  cases hf : findIndex (fun e => e.id == eid) (s.es.buffers.get k)
  · simp [hf]
  · by_cases hk : k' = k
    · subst hk
      cases r <;> simp [hf] <;> exact (s.es.buffers.get k').eraseIdx_sublist _
    · cases r <;> simp [hf, KindMap.get_set, hk]

theorem ttlFire_pending (s : Sys) (k : EffectKind) (eid now : Nat) :
    (ttlFire s k eid now).ttlPending =
      s.ttlPending.eraseP (fun p => p.1 == k && p.2.1 == eid) := by
  have h := ttlCallback_frame true
    { s with now := now,
             ttlPending := s.ttlPending.eraseP (fun p => p.1 == k && p.2.1 == eid) } k eid
  simpa [ttlFire] using h.2.2.2.2.1

theorem ttlFire_active_get (s : Sys) (k : EffectKind) (eid now : Nat) :
    (ttlFire s k eid now).es.activeDecorations.get k =
      max 0 (s.es.activeDecorations.get k - 1) := by
  have h := ttlCallback_active_get_true
    { s with now := now,
             ttlPending := s.ttlPending.eraseP (fun p => p.1 == k && p.2.1 == eid) } k eid
  simpa [ttlFire] using h

end EffectManager

namespace EffectManager

/-! ### Identity lookup: `findIndex` and erasure by identity -/

theorem findIndex_isSome_of_mem (e : Entry) (l : List Entry) (he : e ∈ l) :
    (findIndex (fun x => x.id == e.id) l).isSome = true := by
  induction l with
  | nil => cases he
  | cons a rest ih =>
    by_cases ha : a.id == e.id
    · simp [findIndex, ha]
    · have : e ∈ rest := by
        rcases List.mem_cons.mp he with h | h
        · exfalso; subst h; simp at ha
        · exact h
      simp [findIndex, ha, ih this]

theorem eraseIdx_findIndex (l : List Entry) (e : Entry)
    (hn : (l.map Entry.id).Nodup) (he : e ∈ l) :
    ∀ i, findIndex (fun x => x.id == e.id) l = some i → l.eraseIdx i = l.erase e := by
  induction l with
  | nil => intro i hi; cases he
  | cons a rest ih =>
    intro i hi
    by_cases ha : a.id == e.id
    · have haid : a.id = e.id := by simpa using ha
      have hn2 : (Entry.id a :: rest.map Entry.id).Nodup := by simpa using hn
      have hae : a = e := by
        rcases List.mem_cons.mp he with h | h
        · exact h.symm
        · exfalso
          have h1 : e.id ∈ rest.map Entry.id := List.mem_map_of_mem Entry.id h
          have h2 : a.id ∉ rest.map Entry.id := (List.nodup_cons.mp hn2).1
          rw [haid] at h2
          exact h2 h1
      subst hae
      simp [findIndex, ha] at hi
      subst hi
      simp [List.eraseIdx, List.erase_cons_head]
    · have hrest : e ∈ rest := by
        rcases List.mem_cons.mp he with h | h
        · exfalso; subst h; simp at ha
        · exact h
      have hne : a ≠ e := by
        intro hax; subst hax; simp at ha
      simp only [findIndex, ha, if_false] at hi
      rcases Option.map_eq_some'.mp hi with ⟨j, hj, rfl⟩
      have hnr : (rest.map Entry.id).Nodup := (List.nodup_cons.mp hn).2
      have := ih hnr hrest j hj
      simp [List.eraseIdx, this, List.erase_cons_tail, hne]

end EffectManager

namespace EffectManager

theorem ttlCallback_buffers_get_self (r : Bool) (s : Sys) (k : EffectKind) (e : Entry)
    (hn : ((s.es.buffers.get k).map Entry.id).Nodup) (he : e ∈ s.es.buffers.get k) :
    (ttlCallback r s k e.id).es.buffers.get k = (s.es.buffers.get k).erase e := by
  have hsome := findIndex_isSome_of_mem e _ he
  rcases Option.isSome_iff_exists.mp hsome with ⟨i, hi⟩
  have herase := eraseIdx_findIndex _ e hn he i hi
  simp only [ttlCallback]
  rw [hi]
  cases r <;> simp [herase]

theorem ttlCallback_renders_found_true (s : Sys) (k : EffectKind) (e : Entry)
    (hn : ((s.es.buffers.get k).map Entry.id).Nodup) (he : e ∈ s.es.buffers.get k) :
    (ttlCallback true s k e.id).renders =
      s.renders ++ [RenderCall.combo k (((s.es.buffers.get k).erase e).map Entry.id)] := by
  have hsome := findIndex_isSome_of_mem e _ he
  rcases Option.isSome_iff_exists.mp hsome with ⟨i, hi⟩
  have herase := eraseIdx_findIndex _ e hn he i hi
  simp only [ttlCallback]
  rw [hi]
  simp [herase]

theorem ttlCallback_renders_false (s : Sys) (k : EffectKind) (eid : Nat) :
    (ttlCallback false s k eid).renders = s.renders := by
  unfold ttlCallback
  cases hf : findIndex (fun x => x.id == eid) (s.es.buffers.get k) <;> simp [hf]

theorem ttlFire_active_get_ne (s : Sys) (k k' : EffectKind) (eid now : Nat) (h : k' ≠ k) :
    (ttlFire s k eid now).es.activeDecorations.get k' =
      s.es.activeDecorations.get k' := by
  have hc := ttlCallback_active_get_ne true
    { s with now := now,
             ttlPending := s.ttlPending.eraseP (fun p => p.1 == k && p.2.1 == eid) } k k' eid h
  simpa [ttlFire] using hc

theorem ttlFire_buffers_sublist (s : Sys) (k k' : EffectKind) (eid now : Nat) :
    ((ttlFire s k eid now).es.buffers.get k').Sublist (s.es.buffers.get k') := by
  have hc := ttlCallback_buffers_sublist true
    { s with now := now,
             ttlPending := s.ttlPending.eraseP (fun p => p.1 == k && p.2.1 == eid) } k k' eid
  simpa [ttlFire] using hc

theorem ttlFire_frame (s : Sys) (k : EffectKind) (eid now : Nat) :
    (ttlFire s k eid now).es.lastBlipAt = s.es.lastBlipAt ∧
    (ttlFire s k eid now).es.lastBoomAt = s.es.lastBoomAt ∧
    (ttlFire s k eid now).es.animTimers = s.es.animTimers ∧
    (ttlFire s k eid now).animSched = s.animSched ∧
    (ttlFire s k eid now).nextId = s.nextId ∧
    (ttlFire s k eid now).spriteMap = s.spriteMap ∧
    (ttlFire s k eid now).animDeco = s.animDeco ∧
    (ttlFire s k eid now).spriteCache = s.spriteCache ∧
    (ttlFire s k eid now).shakeEndAt = s.shakeEndAt ∧
    (ttlFire s k eid now).shakeTimer = s.shakeTimer := by
  have hc := ttlCallback_frame true
    { s with now := now,
             ttlPending := s.ttlPending.eraseP (fun p => p.1 == k && p.2.1 == eid) } k eid
  refine ⟨?_, ?_, ?_, ?_, ?_, ?_, ?_, ?_, ?_, ?_⟩ <;>
    simp [ttlFire] <;>
    simp [hc.1, hc.2.1, hc.2.2.1, hc.2.2.2.1, hc.2.2.2.2.2.1, hc.2.2.2.2.2.2.1,
          hc.2.2.2.2.2.2.2.1, hc.2.2.2.2.2.2.2.2.1, hc.2.2.2.2.2.2.2.2.2.1,
          hc.2.2.2.2.2.2.2.2.2.2]

end EffectManager

namespace EffectManager

/-! ### Preservation of the state invariant -/

theorem goodSys_of_eq {cfg : Config} {s t : Sys}
    (h1 : t.es.activeDecorations = s.es.activeDecorations)
    (h2 : t.es.buffers = s.es.buffers)
    (h3 : t.es.animTimers = s.es.animTimers)
    (h4 : t.animSched = s.animSched)
    (h5 : t.ttlPending = s.ttlPending)
    (h6 : t.nextId = s.nextId)
    (hg : goodSys cfg s) : goodSys cfg t := by
  unfold goodSys bufferIds pendingIds at hg ⊢
  rw [h1, h2, h3, h4, h5, h6]
  exact hg

theorem goodSys_clearSpriteAnim {cfg : Config} {s : Sys} (o : Option EffectKind)
    (hg : goodSys cfg s) : goodSys cfg (clearSpriteAnim s o) := by
  have h := clearSpriteAnim_frame s o
  exact goodSys_of_eq (by rw [h.1]) (by rw [h.1]) (by rw [h.1]) h.2.1 h.2.2.1 h.2.2.2.1 hg

theorem goodSys_playSpriteAnim {cfg : Config} {s : Sys} (k : EffectKind) (a : SceneDesc)
    (hg : goodSys cfg s) : goodSys cfg (playSpriteAnim s k a) := by
  have h := playSpriteAnim_frame s k a
  exact goodSys_of_eq (by rw [h.1]) (by rw [h.1]) (by rw [h.1]) h.2.1 h.2.2.1 h.2.2.2.1 hg

theorem goodSys_shake {cfg cfg2 : Config} {s : Sys} (e : Nat)
    (hg : goodSys cfg s) : goodSys cfg (shake cfg2 s e) := by
  have h := shake_frame cfg2 s e
  exact goodSys_of_eq (by rw [h.1]) (by rw [h.1]) (by rw [h.1]) h.2.1 h.2.2.1 h.2.2.2.1 hg

theorem goodSys_shakeTick {cfg : Config} {s : Sys} (now : Nat)
    (hg : goodSys cfg s) : goodSys cfg (shakeTick s now) := by
  have h := shakeTick_frame s now
  exact goodSys_of_eq (by rw [h.1]) (by rw [h.1]) (by rw [h.1]) h.2.1 h.2.2.1 h.2.2.2.1 hg

theorem goodSys_spriteStep {cfg : Config} {s : Sys} (k : EffectKind) (now : Nat)
    (hg : goodSys cfg s) : goodSys cfg (spriteStep s k now) := by
  have h := spriteStep_frame s k now
  exact goodSys_of_eq (by rw [h.1]) (by rw [h.1]) (by rw [h.1]) h.2.1 h.2.2.1 h.2.2.2.1 hg

theorem goodSys_applyOnce {cfg : Config} {s : Sys} (k : EffectKind)
    (hg : goodSys cfg s) : goodSys cfg (applyOnce cfg s k) := by
  by_cases h : canAddDecoration s k = true
  case neg => rw [applyOnce_not cfg s k h]; exact hg
  case pos =>
  obtain ⟨hA, hB, hC, hD, hE, hF, hG⟩ := hg
  have hlt : s.es.activeDecorations.get k < MAX_DECORATIONS_PER_TYPE := by
    simpa [canAddDecoration] using h
  refine ⟨?_, ?_, ?_, ?_, ?_, ?_, ?_⟩
  · intro k'
    rw [applyOnce_active_get cfg s k k' h]
    split
    · constructor
      · have := (hA k).1; omega
      · omega
    · exact hA k'
  · intro k'
    rw [applyOnce_buffers_get cfg s k k' h]
    split
    · exact pushCap_length_le cfg _ _ (hB k)
    · exact hB k'
  · intro k'
    rw [applyOnce_sched_get cfg s k k' h, applyOnce_timers_get cfg s k k' h]
    by_cases hk : k' = k
    · subst hk
      by_cases ht : s.es.animTimers.get k' = true
      · simp [ht, hC k']
      · have ht2 : s.es.animTimers.get k' = false := by
          revert ht; cases s.es.animTimers.get k' <;> simp
        simp [ht2, hC k']
    · simp [hk]
      exact hC k'
  · unfold pendingIds
    rw [applyOnce_pending cfg s k h]
    rw [List.map_append]
    rw [List.nodup_append]
    refine ⟨hD, List.nodup_singleton _, ?_⟩
    intro x hx
    simp only [List.mem_map] at hx
    rcases hx with ⟨p, hp, rfl⟩
    have := hE p hp
    simp
    omega
  · intro p hp
    rw [applyOnce_pending cfg s k h] at hp
    rw [applyOnce_nextId cfg s k h]
    rcases List.mem_append.mp hp with hp | hp
    · have := hE p hp; omega
    · simp only [List.mem_singleton] at hp
      subst hp
      show s.nextId < s.nextId + 1
      omega
  · intro k'
    unfold bufferIds
    rw [applyOnce_buffers_get cfg s k k' h]
    split
    · have hsub : ((pushCap cfg (s.es.buffers.get k)
          (Entry.mk s.nextId s.now)).map Entry.id).Sublist
          ((s.es.buffers.get k ++ [Entry.mk s.nextId s.now]).map Entry.id) :=
        (pushCap_sublist_append cfg _ _).map Entry.id
      refine List.Nodup.sublist hsub ?_
      rw [List.map_append, List.nodup_append]
      refine ⟨hF k, by simp, ?_⟩
      intro x hx
      simp only [List.mem_map] at hx
      rcases hx with ⟨q, hq, rfl⟩
      have := hG k q hq
      simp
      omega
    · exact hF k'
  · intro k' e he
    rw [applyOnce_nextId cfg s k h]
    rw [applyOnce_buffers_get cfg s k k' h] at he
    by_cases hk : k' = k
    · rw [if_pos hk] at he
      have hmem := (pushCap_sublist_append cfg _ _).subset he
      rcases List.mem_append.mp hmem with hm | hm
      · have := hG k e hm; omega
      · simp at hm
        subst hm
        simp
    · rw [if_neg hk] at he
      have := hG k' e he; omega

end EffectManager

namespace EffectManager

theorem goodSys_ttlFire {cfg : Config} {s : Sys} (k : EffectKind) (eid now : Nat)
    (hg : goodSys cfg s) : goodSys cfg (ttlFire s k eid now) := by
  obtain ⟨hA, hB, hC, hD, hE, hF, hG⟩ := hg
  have hfr := ttlFire_frame s k eid now
  refine ⟨?_, ?_, ?_, ?_, ?_, ?_, ?_⟩
  · intro k'
    by_cases hk : k' = k
    · subst hk
      rw [ttlFire_active_get s k' eid now]
      constructor
      · exact le_max_left _ _
      · have h1 := (hA k').2
        have h2 : (0 : Int) ≤ MAX_DECORATIONS_PER_TYPE := by decide
        exact max_le h2 (by omega)
    · rw [ttlFire_active_get_ne s k k' eid now hk]
      exact hA k'
  · intro k'
    have := (ttlFire_buffers_sublist s k k' eid now).length_le
    exact le_trans this (hB k')
  · intro k'
    rw [hfr.2.2.2.1, hfr.2.2.1]
    exact hC k'
  · unfold pendingIds
    rw [ttlFire_pending s k eid now]
    exact hD.sublist ((List.eraseP_sublist s.ttlPending).map _)
  · intro p hp
    rw [ttlFire_pending s k eid now] at hp
    rw [hfr.2.2.2.2.1]
    exact hE p ((List.eraseP_sublist s.ttlPending).subset hp)
  · intro k'
    unfold bufferIds
    exact (hF k').sublist ((ttlFire_buffers_sublist s k k' eid now).map _)
  · intro k' e he
    rw [hfr.2.2.2.2.1]
    exact hG k' e ((ttlFire_buffers_sublist s k k' eid now).subset he)

theorem cancelAnim_get (timers : KindMap Bool) (sched : KindMap Nat) (k k' : EffectKind) :
    (cancelAnim timers sched k).get k' =
      if k' = k ∧ timers.get k = true then sched.get k - 1 else sched.get k' := by
  unfold cancelAnim
  split
  · rename_i ht
    by_cases hk : k' = k
    · subst hk; simp [ht]
    · simp [hk, KindMap.get_set, ht]
  · rename_i ht
    simp only [Bool.not_eq_true] at ht
    simp [ht]

theorem goodSys_clearAll {cfg : Config} {s : Sys} (now : Nat)
    (hg : goodSys cfg s) : goodSys cfg (clearAllDecorations s now) := by
  obtain ⟨hA, hB, hC, hD, hE, hF, hG⟩ := hg
  refine ⟨?_, ?_, ?_, ?_, ?_, ?_, ?_⟩
  · intro k'
    simp [clearAllDecorations]
    decide
  · intro k'
    simp [clearAllDecorations]
  · intro k'
    have hb := hC .blip
    have ho := hC .boom
    have hn := hC .newline
    simp only [KindMap.get] at hb ho hn
    cases k' <;>
      cases hxb : s.es.animTimers.blip <;>
      cases hxo : s.es.animTimers.boom <;>
      cases hxn : s.es.animTimers.newline <;>
        simp only [hxb, hxo, hxn, if_true, if_false, Bool.false_eq_true] at hb ho hn <;>
        simp [clearAllDecorations, cancelAnim, KindMap.get, KindMap.set, KindMap.const,
              hxb, hxo, hxn, hb, ho, hn]
  · unfold pendingIds
    simpa [clearAllDecorations] using hD
  · intro p hp
    simp only [clearAllDecorations] at hp
    simpa [clearAllDecorations] using hE p hp
  · intro k'
    unfold bufferIds
    simp [clearAllDecorations]
  · intro k' e he
    simp [clearAllDecorations] at he

end EffectManager

namespace EffectManager

theorem goodSys_animTick {cfg : Config} {s : Sys} (k : EffectKind) (now : Nat)
    (hl : 1 ≤ s.animSched.get k) (hg : goodSys cfg s) : goodSys cfg (animTick s k now) := by
  obtain ⟨hA, hB, hC, hD, hE, hF, hG⟩ := hg
  have ht : s.es.animTimers.get k = true := by
    cases hx : s.es.animTimers.get k
    · rw [hC k, hx] at hl; simp at hl
    · rfl
  have hs1 : s.animSched.get k = 1 := by rw [hC k, ht]; rfl
  simp only [animTick]
  split
  · refine ⟨?_, ?_, ?_, ?_, ?_, ?_, ?_⟩
    · intro k'; simpa using hA k'
    · intro k'; simpa using hB k'
    · intro k'
      by_cases hk : k' = k
      · subst hk; simp [KindMap.get_set, hs1]
      · simp only [KindMap.get_set, hk, if_false]
        simpa [KindMap.get_set, hk] using hC k'
    · simpa [pendingIds] using hD
    · intro p hp
      simp only [] at hp
      simpa using hE p hp
    · intro k'; simpa [bufferIds] using hF k'
    · intro k' e he
      simp only [] at he
      simpa using hG k' e he
  · refine ⟨?_, ?_, ?_, ?_, ?_, ?_, ?_⟩
    · intro k'; simpa using hA k'
    · intro k'; simpa using hB k'
    · intro k'
      by_cases hk : k' = k
      · subst hk; simp [KindMap.get_set, hs1, ht]
      · simp only [KindMap.get_set, hk, if_false]
        simpa [KindMap.get_set, hk] using hC k'
    · simpa [pendingIds] using hD
    · intro p hp
      simp only [] at hp
      simpa using hE p hp
    · intro k'; simpa [bufferIds] using hF k'
    · intro k' e he
      simp only [] at he
      simpa using hG k' e he

theorem goodSys_showBlip {cfg : Config} {assets : KindMap SceneDesc} {s : Sys}
    (now : Nat) (flag : Bool) (hg : goodSys cfg s) :
    goodSys cfg (showBlip cfg assets s now flag) := by
  have key : ∀ u : Sys, goodSys cfg u →
      goodSys cfg (playSpriteAnim (applyOnce cfg (clearSpriteAnim u none) .blip) .blip
        (assets.get .blip)) :=
    fun u hu => goodSys_playSpriteAnim _ _ (goodSys_applyOnce _ (goodSys_clearSpriteAnim none hu))
  simp only [showBlip]
  split
  · apply goodSys_shake
    split
    · exact key _ (goodSys_of_eq rfl rfl rfl rfl rfl rfl hg)
    · exact goodSys_of_eq rfl rfl rfl rfl rfl rfl hg
  · split
    · exact key _ (goodSys_of_eq rfl rfl rfl rfl rfl rfl hg)
    · exact goodSys_of_eq rfl rfl rfl rfl rfl rfl hg

theorem goodSys_showBoom {cfg : Config} {assets : KindMap SceneDesc} {s : Sys}
    (now : Nat) (flag : Bool) (hg : goodSys cfg s) :
    goodSys cfg (showBoom cfg assets s now flag) := by
  have key : ∀ u : Sys, goodSys cfg u →
      goodSys cfg (playSpriteAnim (applyOnce cfg (clearSpriteAnim u none) .boom) .boom
        (assets.get .boom)) :=
    fun u hu => goodSys_playSpriteAnim _ _ (goodSys_applyOnce _ (goodSys_clearSpriteAnim none hu))
  simp only [showBoom]
  split
  · apply goodSys_shake
    split
    · exact key _ (goodSys_of_eq rfl rfl rfl rfl rfl rfl hg)
    · exact goodSys_of_eq rfl rfl rfl rfl rfl rfl hg
  · split
    · exact key _ (goodSys_of_eq rfl rfl rfl rfl rfl rfl hg)
    · exact goodSys_of_eq rfl rfl rfl rfl rfl rfl hg

theorem goodSys_showNewline {cfg : Config} {assets : KindMap SceneDesc} {s : Sys}
    (now : Nat) (flag : Bool) (hg : goodSys cfg s) :
    goodSys cfg (showNewline cfg assets s now flag) := by
  have key : goodSys cfg (playSpriteAnim (applyOnce cfg
      (clearSpriteAnim { s with now := now } none) .newline) .newline (assets.get .newline)) :=
    goodSys_playSpriteAnim _ _ (goodSys_applyOnce _ (goodSys_clearSpriteAnim none
      (goodSys_of_eq rfl rfl rfl rfl rfl rfl hg)))
  simp only [showNewline]
  split
  · exact goodSys_shake _ key
  · exact key

theorem goodSys_init (cfg : Config) : goodSys cfg init := by
  refine ⟨?_, ?_, ?_, ?_, ?_, ?_, ?_⟩ <;>
    simp [init, pendingIds, bufferIds, MAX_DECORATIONS_PER_TYPE]

theorem reachable_goodSys {cfg : Config} {assets : KindMap SceneDesc} {s : Sys}
    (h : Reachable cfg assets s) : goodSys cfg s := by
  induction h with
  | init => exact goodSys_init cfg
  | step hr hstep ih =>
    cases hstep with
    | blipFire now flag h => exact goodSys_showBlip now flag ih
    | boomFire now flag h => exact goodSys_showBoom now flag ih
    | newlineFire now flag h => exact goodSys_showNewline now flag ih
    | clearAll now h => exact goodSys_clearAll now ih
    | anim k now h hl => exact goodSys_animTick k now hl ih
    | ttl k eid t now h ht hm => exact goodSys_ttlFire k eid now ih
    | sprite k i now h m hm hk => exact goodSys_spriteStep k now ih
    | shakeT now h hs => exact goodSys_shakeTick now ih

end EffectManager

namespace EffectManager

/-! ### Supporting lemmas for the claims -/

theorem pushCap_ne_nil (cfg : Config) (l : List Entry) (e : Entry) :
    pushCap cfg l e ≠ [] := by
  simp only [pushCap]
  split
  · rename_i hlt
    apply List.ne_nil_of_length_pos
    have h5 : 5 ≤ max cfg.maxTrail MAX_DECORATIONS_PER_TYPE.toNat := by
      have : MAX_DECORATIONS_PER_TYPE.toNat = 5 := by decide
      omega
    simp at hlt ⊢
    omega
  · simp

theorem shake_shakeTimer (cfg : Config) (s : Sys) (e : Nat) :
    (shake cfg s e).shakeTimer = true := by
  simp only [shake]
  split
  · rename_i h
    exact h
  · rfl

theorem showBlip_lastBlipAt (cfg : Config) (assets : KindMap SceneDesc) (s : Sys)
    (now : Nat) (flag : Bool) :
    (showBlip cfg assets s now flag).es.lastBlipAt =
      if 20 ≤ now - s.es.lastBlipAt then now else s.es.lastBlipAt := by
  simp only [showBlip]
  have hsh : ∀ u : Sys, (if flag = true then shake cfg u 120 else u).es = u.es := by
    intro u
    split
    · exact (shake_frame cfg u 120).1
    · rfl
  rw [hsh]
  by_cases hrate : 20 ≤ now - s.es.lastBlipAt
  · rw [if_pos hrate, if_pos (show 20 ≤ now - ({ s with now := now } : Sys).es.lastBlipAt from hrate)]
    rw [(playSpriteAnim_frame _ _ _).1]
    have hap := (applyOnce_frame cfg (clearSpriteAnim
      { s with now := now, es := { s.es with lastBlipAt := now } } none) .blip).1
    rw [hap, (clearSpriteAnim_frame _ _).1]
  · rw [if_neg hrate, if_neg (show ¬ 20 ≤ now - ({ s with now := now } : Sys).es.lastBlipAt from hrate)]

theorem animTick_timers_get (s : Sys) (k2 : EffectKind) (now : Nat) (k : EffectKind) :
    (animTick s k2 now).es.animTimers.get k =
      if (s.es.buffers.get k2).isEmpty = true ∧ k = k2 then false
      else s.es.animTimers.get k := by
  simp only [animTick]
  split
  · rename_i hemp
    by_cases hk : k = k2
    · subst hk; simp [hemp, KindMap.get_set]
    · simp [KindMap.get_set, hk]
  · rename_i hemp
    simp only [Bool.not_eq_true] at hemp
    simp [hemp]

theorem animTick_empty (s : Sys) (k : EffectKind) (now : Nat)
    (h : s.es.buffers.get k = []) :
    (animTick s k now).es.animTimers.get k = false ∧
    (animTick s k now).animSched.get k = s.animSched.get k - 1 ∧
    (animTick s k now).renders = s.renders := by
  simp [animTick, h, KindMap.get_set]

theorem animTick_nonempty (s : Sys) (k : EffectKind) (now : Nat)
    (h : s.es.buffers.get k ≠ []) (hl : 1 ≤ s.animSched.get k) :
    (animTick s k now).animSched.get k = s.animSched.get k ∧
    (animTick s k now).es.animTimers = s.es.animTimers ∧
    (animTick s k now).renders =
      s.renders ++ [RenderCall.combo k ((s.es.buffers.get k).map Entry.id)] := by
  have hemp : (s.es.buffers.get k).isEmpty = false := by simpa [List.isEmpty_iff] using h
  refine ⟨?_, ?_, ?_⟩ <;> simp [animTick, hemp, KindMap.get_set]
  omega

theorem not_mem_eraseP_pending (l : List (EffectKind × Nat × Nat)) (k : EffectKind)
    (eid t : Nat) (hn : (l.map (fun p => p.2.1)).Nodup) (hm : (k, eid, t) ∈ l) :
    ∀ t2, (k, eid, t2) ∉ l.eraseP (fun p => p.1 == k && p.2.1 == eid) := by
  induction l with
  | nil => cases hm
  | cons a rest ih =>
    have hn2 : ((fun p => p.2.1) a :: rest.map (fun p => p.2.1)).Nodup := by simpa using hn
    intro t2 hmem
    by_cases hpa : (a.1 == k && a.2.1 == eid) = true
    · rw [show (a :: rest).eraseP (fun p => p.1 == k && p.2.1 == eid) = rest by
          simp [List.eraseP_cons, hpa]] at hmem
      have haid : a.2.1 = eid := by
        have := (Bool.and_eq_true _ _).mp hpa
        simpa using this.2
      have h1 : eid ∈ rest.map (fun p => p.2.1) :=
        List.mem_map_of_mem (fun p => p.2.1) hmem
      have h2 : a.2.1 ∉ rest.map (fun p => p.2.1) := (List.nodup_cons.mp hn2).1
      rw [haid] at h2
      exact h2 h1
    · have hpa2 : (a.1 == k && a.2.1 == eid) = false := by
        revert hpa; cases (a.1 == k && a.2.1 == eid) <;> simp
      rw [show (a :: rest).eraseP (fun p => p.1 == k && p.2.1 == eid)
            = a :: rest.eraseP (fun p => p.1 == k && p.2.1 == eid) by
          simp [List.eraseP_cons, hpa2]] at hmem
      have hma : (k, eid, t) ≠ a := by
        intro hx
        rw [← hx] at hpa2
        simp at hpa2
      have hmr : (k, eid, t) ∈ rest := by
        rcases List.mem_cons.mp hm with hx | hx
        · exact absurd hx.symm (Ne.symm hma)
        · exact hx
      rcases List.mem_cons.mp hmem with hx | hx
      · rw [← hx] at hpa2
        simp at hpa2
      · exact ih (List.nodup_cons.mp hn2).2 hmr t2 hx

theorem entry_core_turnOn (cfg : Config) (u : Sys) (kf : EffectKind) (a : SceneDesc)
    (k : EffectKind) (h0 : u.es.animTimers.get k = false)
    (h1 : (playSpriteAnim (applyOnce cfg (clearSpriteAnim u none) kf) kf a).es.animTimers.get k
            = true) :
    (playSpriteAnim (applyOnce cfg (clearSpriteAnim u none) kf) kf a).es.buffers.get k ≠ [] := by
  rw [(playSpriteAnim_frame _ _ _).1] at h1 ⊢
  have hcf := (clearSpriteAnim_frame u none).1
  by_cases hc : canAddDecoration (clearSpriteAnim u none) kf = true
  · rw [applyOnce_timers_get cfg _ kf k hc] at h1
    by_cases hk : k = kf
    · subst hk
      rw [applyOnce_buffers_get cfg _ k k hc, if_pos rfl]
      exact pushCap_ne_nil cfg _ _
    · rw [if_neg hk, hcf, h0] at h1
      cases h1
  · rw [applyOnce_not cfg _ kf hc, hcf, h0] at h1
    cases h1

theorem showBlip_turnOn (cfg : Config) (assets : KindMap SceneDesc) (s : Sys) (now : Nat)
    (flag : Bool) (k : EffectKind) (h0 : s.es.animTimers.get k = false)
    (h1 : (showBlip cfg assets s now flag).es.animTimers.get k = true) :
    (showBlip cfg assets s now flag).es.buffers.get k ≠ [] := by
  simp only [showBlip] at h1 ⊢
  have hsh : ∀ u : Sys, (if flag = true then shake cfg u 120 else u).es = u.es := by
    intro u; split
    · exact (shake_frame cfg u 120).1
    · rfl
  rw [hsh] at h1 ⊢
  by_cases hrate : 20 ≤ now - ({ s with now := now } : Sys).es.lastBlipAt
  · rw [if_pos hrate] at h1 ⊢
    exact entry_core_turnOn cfg _ .blip _ k h0 h1
  · rw [if_neg hrate] at h1
    rw [h0] at h1
    cases h1

theorem showBoom_turnOn (cfg : Config) (assets : KindMap SceneDesc) (s : Sys) (now : Nat)
    (flag : Bool) (k : EffectKind) (h0 : s.es.animTimers.get k = false)
    (h1 : (showBoom cfg assets s now flag).es.animTimers.get k = true) :
    (showBoom cfg assets s now flag).es.buffers.get k ≠ [] := by
  simp only [showBoom] at h1 ⊢
  have hsh : ∀ u : Sys, (if flag = true then shake cfg u 180 else u).es = u.es := by
    intro u; split
    · exact (shake_frame cfg u 180).1
    · rfl
  rw [hsh] at h1 ⊢
  by_cases hrate : 100 ≤ now - ({ s with now := now } : Sys).es.lastBoomAt
  · rw [if_pos hrate] at h1 ⊢
    exact entry_core_turnOn cfg _ .boom _ k h0 h1
  · rw [if_neg hrate] at h1
    rw [h0] at h1
    cases h1

theorem showNewline_turnOn (cfg : Config) (assets : KindMap SceneDesc) (s : Sys) (now : Nat)
    (flag : Bool) (k : EffectKind) (h0 : s.es.animTimers.get k = false)
    (h1 : (showNewline cfg assets s now flag).es.animTimers.get k = true) :
    (showNewline cfg assets s now flag).es.buffers.get k ≠ [] := by
  simp only [showNewline] at h1 ⊢
  have hsh : ∀ u : Sys, (if flag = true then shake cfg u 140 else u).es = u.es := by
    intro u; split
    · exact (shake_frame cfg u 140).1
    · rfl
  rw [hsh] at h1 ⊢
  exact entry_core_turnOn cfg _ .newline _ k h0 h1

theorem step_timer_on {cfg : Config} {assets : KindMap SceneDesc} {s t : Sys}
    (k : EffectKind) (hstep : Step cfg assets s t)
    (h0 : s.es.animTimers.get k = false) (h1 : t.es.animTimers.get k = true) :
    t.es.buffers.get k ≠ [] := by
  cases hstep with
  | blipFire now flag h => exact showBlip_turnOn cfg assets s now flag k h0 h1
  | boomFire now flag h => exact showBoom_turnOn cfg assets s now flag k h0 h1
  | newlineFire now flag h => exact showNewline_turnOn cfg assets s now flag k h0 h1
  | clearAll now h =>
    exfalso
    simp [clearAllDecorations] at h1
  | anim k2 now h hl =>
    exfalso
    rw [animTick_timers_get s k2 now k] at h1
    split at h1
    · cases h1
    · rw [h0] at h1; cases h1
  | ttl k2 eid t2 now h ht hm =>
    exfalso
    rw [(ttlFire_frame s k2 eid now).2.2.1, h0] at h1
    cases h1
  | sprite k2 i now h m hm hk =>
    exfalso
    rw [(spriteStep_frame s k2 now).1, h0] at h1
    cases h1
  | shakeT now h hs =>
    exfalso
    rw [(shakeTick_frame s now).1, h0] at h1
    cases h1

end EffectManager

namespace EffectManager

/-- Claim C3: for every view and kind, a fire request arriving strictly
before `minInterval(kind)` has elapsed since the last accepted fire (20 ms
for blip, 100 ms for boom) mutates no buffer, emits no render call, does not
update `lastFireAt[kind]` (the whole editor state is untouched), schedules
nothing, and leaves the sprite state alone; such a rejected call still
triggers the shake controller when the shake flag is set. -/
theorem C3_theorem (cfg : Config) (assets : KindMap SceneDesc) :
    (∀ (s : Sys) (now : Nat) (flag : Bool), now - s.es.lastBlipAt < 20 →
      (showBlip cfg assets s now flag).es = s.es ∧
      (showBlip cfg assets s now flag).renders = s.renders ∧
      (showBlip cfg assets s now flag).ttlPending = s.ttlPending ∧
      (showBlip cfg assets s now flag).spriteMap = s.spriteMap ∧
      (showBlip cfg assets s now flag).animDeco = s.animDeco ∧
      (showBlip cfg assets s now flag).animSched = s.animSched ∧
      (flag = true → (showBlip cfg assets s now flag).shakeTimer = true)) ∧
    (∀ (s : Sys) (now : Nat) (flag : Bool), now - s.es.lastBoomAt < 100 →
      (showBoom cfg assets s now flag).es = s.es ∧
      (showBoom cfg assets s now flag).renders = s.renders ∧
      (showBoom cfg assets s now flag).ttlPending = s.ttlPending ∧
      (showBoom cfg assets s now flag).spriteMap = s.spriteMap ∧
      (showBoom cfg assets s now flag).animDeco = s.animDeco ∧
      (showBoom cfg assets s now flag).animSched = s.animSched ∧
      (flag = true → (showBoom cfg assets s now flag).shakeTimer = true)) := by
  constructor
  · intro s now flag h
    have hn : ¬ 20 ≤ now - ({ s with now := now } : Sys).es.lastBlipAt := by
      show ¬ 20 ≤ now - s.es.lastBlipAt
      omega
    have hsh := shake_frame cfg ({ s with now := now } : Sys) 120
    simp only [showBlip, if_neg hn]
    by_cases hf : flag = true
    · simp only [hf, if_true]
      exact ⟨hsh.1, hsh.2.2.2.2.2.2.2.1, hsh.2.2.1, hsh.2.2.2.2.2.1, hsh.2.2.2.2.2.2.1,
        hsh.2.1, fun _ => shake_shakeTimer cfg _ 120⟩
    · have hf2 : flag = false := by revert hf; cases flag <;> simp
      subst hf2
      simp
  · intro s now flag h
    have hn : ¬ 100 ≤ now - ({ s with now := now } : Sys).es.lastBoomAt := by
      show ¬ 100 ≤ now - s.es.lastBoomAt
      omega
    have hsh := shake_frame cfg ({ s with now := now } : Sys) 180
    simp only [showBoom, if_neg hn]
    by_cases hf : flag = true
    · simp only [hf, if_true]
      exact ⟨hsh.1, hsh.2.2.2.2.2.2.2.1, hsh.2.2.1, hsh.2.2.2.2.2.1, hsh.2.2.2.2.2.2.1,
        hsh.2.1, fun _ => shake_shakeTimer cfg _ 180⟩
    · have hf2 : flag = false := by revert hf; cases flag <;> simp
      subst hf2
      simp

/-- Witness for C3 at a concrete state: after an accepted blip at t=1000, a
blip at t=1010 (10 ms later) and a boom at t=50 (before any accepted boom's
100 ms window has a chance) leave the editor state untouched. -/
theorem C3_witness :
    (showBlip cfg0 assets0 cexC1a 1010 false).es = cexC1a.es ∧
    (showBlip cfg0 assets0 cexC1a 1010 false).renders = cexC1a.renders ∧
    (showBoom cfg0 assets0 cexC1a 50 true).es = cexC1a.es ∧
    (showBoom cfg0 assets0 cexC1a 50 true).shakeTimer = true := by
  have hb := (C3_theorem cfg0 assets0).1 cexC1a 1010 false (by decide)
  have ho := (C3_theorem cfg0 assets0).2 cexC1a 50 true (by decide)
  exact ⟨hb.1, hb.2.1, ho.1, ho.2.2.2.2.2.2 rfl⟩

/-- Claim C4: for every view and kind the buffer length never exceeds
`cap = max(configuredTrailLength, maxConcurrent)` after any mutation
(invariant over all reachable states); when an insertion would exceed the
cap the front (oldest) entry is evicted first, and below the cap the entry
is appended with no eviction. -/
theorem C4_theorem (cfg : Config) (assets : KindMap SceneDesc) :
    (∀ s : Sys, Reachable cfg assets s →
      ∀ k, (s.es.buffers.get k).length ≤ max cfg.maxTrail MAX_DECORATIONS_PER_TYPE.toNat) ∧
    (∀ (s : Sys) (k : EffectKind), canAddDecoration s k = true →
      (s.es.buffers.get k).length = max cfg.maxTrail MAX_DECORATIONS_PER_TYPE.toNat →
      (applyOnce cfg s k).es.buffers.get k =
        (s.es.buffers.get k).drop 1 ++ [{ id := s.nextId, createdAt := s.now }]) ∧
    (∀ (s : Sys) (k : EffectKind), canAddDecoration s k = true →
      (s.es.buffers.get k).length < max cfg.maxTrail MAX_DECORATIONS_PER_TYPE.toNat →
      (applyOnce cfg s k).es.buffers.get k =
        s.es.buffers.get k ++ [{ id := s.nextId, createdAt := s.now }]) := by
  refine ⟨?_, ?_, ?_⟩
  · intro s hr k
    exact (reachable_goodSys hr).2.1 k
  · intro s k hc hfull
    rw [applyOnce_buffers_get cfg s k k hc, if_pos rfl]
    exact pushCap_eq_of_full cfg _ _ hfull
  · intro s k hc hlt
    rw [applyOnce_buffers_get cfg s k k hc, if_pos rfl]
    exact pushCap_eq_of_lt cfg _ _ hlt

/-- Witness for C4: the invariant at the freshly created state, and the FIFO
eviction on a concrete full buffer (five entries, cap 5): entry 0 is
dropped from the front and the new entry appended at the back. -/
theorem C4_witness :
    ((init.es.buffers.get .blip).length ≤ max cfg0.maxTrail MAX_DECORATIONS_PER_TYPE.toNat) ∧
    ((applyOnce cfg0 fullBufferSys .blip).es.buffers.get .blip =
      (fullBufferSys.es.buffers.get .blip).drop 1 ++
        [{ id := fullBufferSys.nextId, createdAt := fullBufferSys.now }]) := by
  refine ⟨(C4_theorem cfg0 assets0).1 init Reachable.init .blip, ?_⟩
  exact (C4_theorem cfg0 assets0).2.1 fullBufferSys .blip (by decide) (by decide)

/-- Claim C5: each admitted entry schedules its one-shot removal for
`ttl(kind)` ms after insertion; when the callback runs it removes exactly
the originally inserted instance, matched by identity (`x.opt === opt`),
whatever other entries were inserted or removed in between; it re-renders
the remaining buffer and decrements the active count floored at zero; and on
an invalidated view the thrown render error is caught and no render is
emitted. -/
theorem C5_theorem (cfg : Config) :
    (∀ (s : Sys) (k : EffectKind), canAddDecoration s k = true →
      (applyOnce cfg s k).ttlPending =
        s.ttlPending ++ [(k, s.nextId, s.now + getTtl cfg k)]) ∧
    (∀ (s : Sys) (k : EffectKind) (e : Entry) (renderOk : Bool),
      ((s.es.buffers.get k).map Entry.id).Nodup →
      e ∈ s.es.buffers.get k →
      ((ttlCallback renderOk s k e.id).es.buffers.get k = (s.es.buffers.get k).erase e) ∧
      (e ∉ (ttlCallback renderOk s k e.id).es.buffers.get k) ∧
      (∀ x ∈ s.es.buffers.get k, x ≠ e →
        x ∈ (ttlCallback renderOk s k e.id).es.buffers.get k) ∧
      (renderOk = true →
        (ttlCallback renderOk s k e.id).renders =
          s.renders ++ [RenderCall.combo k (((s.es.buffers.get k).erase e).map Entry.id)] ∧
        (ttlCallback renderOk s k e.id).es.activeDecorations.get k =
          max 0 (s.es.activeDecorations.get k - 1)) ∧
      (renderOk = false → (ttlCallback renderOk s k e.id).renders = s.renders)) := by
  constructor
  · intro s k hc
    exact applyOnce_pending cfg s k hc
  · intro s k e renderOk hn he
    have hbuf := ttlCallback_buffers_get_self renderOk s k e hn he
    have hnl : (s.es.buffers.get k).Nodup := List.Nodup.of_map Entry.id hn
    refine ⟨hbuf, ?_, ?_, ?_, ?_⟩
    · rw [hbuf]
      exact hnl.not_mem_erase
    · intro x hx hne
      rw [hbuf]
      exact (List.mem_erase_of_ne hne).mpr hx
    · intro hro
      subst hro
      exact ⟨ttlCallback_renders_found_true s k e hn he, ttlCallback_active_get_true s k e.id⟩
    · intro hro
      subst hro
      exact ttlCallback_renders_false s k e.id

/-- Witness for C5 at a concrete buffer of five entries: removing entry 2 by
identity erases exactly it, keeps entry 4, re-renders, decrements, and with
an invalid view leaves the render log untouched. -/
theorem C5_witness :
    ((applyOnce cfg0 fullBufferSys .blip).ttlPending =
      fullBufferSys.ttlPending ++ [(.blip, 5, 400)]) ∧
    ((ttlCallback true fullBufferSys .blip 2).es.buffers.get .blip =
      (fullBufferSys.es.buffers.get .blip).erase { id := 2, createdAt := 0 }) ∧
    ((ttlCallback true fullBufferSys .blip 2).es.activeDecorations.get .blip =
      max 0 (fullBufferSys.es.activeDecorations.get .blip - 1)) ∧
    ((ttlCallback false fullBufferSys .blip 2).renders = fullBufferSys.renders) := by
  have h1 := (C5_theorem cfg0).1 fullBufferSys .blip (by decide)
  have h2 := (C5_theorem cfg0).2 fullBufferSys .blip { id := 2, createdAt := 0 } true
    (by decide) (by decide)
  have h3 := (C5_theorem cfg0).2 fullBufferSys .blip { id := 2, createdAt := 0 } false
    (by decide) (by decide)
  exact ⟨h1, h2.1, (h2.2.2.2.1 rfl).2, h3.2.2.2.2 rfl⟩

end EffectManager

namespace EffectManager

/-- Claim C7: decoding a well-formed asset whose frame-sequence block
references the three named regions in the order `[b, a, c]` with speed 12
yields the three frames in exactly that reference order at 12 fps; an absent
speed field defaults to 24 fps; the fps is always floored at 1; and decoding
the same kind a second time returns the identical cached result without
re-reading the asset (`ensureSpriteData` is idempotent and memoised per
kind). -/
theorem C7_theorem :
    (∀ ra rb rc : Rect,
      (decodeScene { atlas := [("a", ra), ("b", rb), ("c", rc)],
                     order := some ["b", "a", "c"], speed := some 12 }).frames = [rb, ra, rc] ∧
      (decodeScene { atlas := [("a", ra), ("b", rb), ("c", rc)],
                     order := some ["b", "a", "c"], speed := some 12 }).fps = 12) ∧
    (∀ d : SceneDesc, d.speed = none → (decodeScene d).fps = 24) ∧
    (∀ d : SceneDesc, 1 ≤ (decodeScene d).fps) ∧
    (∀ (cache : KindMap (Option SpriteData)) (k : EffectKind) (a : SceneDesc),
      (cache.get k).isSome = true → ensureSpriteData cache k a = cache) ∧
    (∀ (cache : KindMap (Option SpriteData)) (k : EffectKind) (a a2 : SceneDesc),
      ensureSpriteData (ensureSpriteData cache k a) k a2 = ensureSpriteData cache k a) := by
  refine ⟨?_, ?_, ?_, ?_, ?_⟩
  · intro ra rb rc
    constructor
    · rfl
    · show max (1 : ℚ) 12 = 12
      norm_num
  · intro d h
    simp [decodeScene, h]
  · intro d
    simp only [decodeScene]
    cases hd : d.speed with
    | none => norm_num
    | some q =>
      simp only []
      exact le_max_left 1 q
  · intro cache k a h
    simp [ensureSpriteData, h]
  · intro cache k a a2
    by_cases h : (cache.get k).isSome = true
    · simp [ensureSpriteData, h]
    · simp [ensureSpriteData, h]

/-- Witness for C7's conditional parts: default fps 24 on a speed-less
asset, the memoisation on an already decoded cache, and the idempotency on
a concrete decode. -/
theorem C7_witness :
    ((decodeScene { atlas := [], order := none, speed := none }).fps = 24) ∧
    (ensureSpriteData (ensureSpriteData (KindMap.const none) .blip descOneFrame) .blip
        { atlas := [], order := none, speed := none } =
      ensureSpriteData (KindMap.const none) .blip descOneFrame) := by
  refine ⟨C7_theorem.2.1 _ rfl, ?_⟩
  exact C7_theorem.2.2.2.1 (ensureSpriteData (KindMap.const none) .blip descOneFrame) .blip _
    (by decide)

/-- Claim C8: `shake(view, extendMs)` sets the deadline to
`max(previousDeadline, now + max(extendMs, decayFloor))` with
`decayFloor = max(20, configured shake decay)` (default 120 ms); the
deadline never decreases; and concretely, triggering with 120 ms at t=1000
and again with 140 ms at t=1050 yields deadline 1190 = t+190, not 1120. -/
theorem C8_theorem (cfg : Config) :
    (∀ (s : Sys) (e : Nat),
      (shake cfg s e).shakeEndAt =
        some (max (s.shakeEndAt.getD 0) (s.now + max e (max 20 cfg.shakeDecayMs)))) ∧
    (∀ (s : Sys) (e d : Nat), s.shakeEndAt = some d →
      d ≤ max (s.shakeEndAt.getD 0) (s.now + max e (max 20 cfg.shakeDecayMs))) ∧
    ((shake cfg0 { (shake cfg0 { init with now := 1000 } 120) with now := 1050 } 140).shakeEndAt
      = some 1190) ∧
    ((shake cfg0 { init with now := 1000 } 120).shakeEndAt = some 1120) := by
  refine ⟨?_, ?_, by decide, by decide⟩
  · intro s e
    simp only [shake]
    split <;> rfl
  · intro s e d h
    rw [h]
    exact le_max_left _ _

/-- Witness for C8's conditional part at the concrete first trigger: the
deadline 1120 never decreases under a second trigger with 140 ms at
t=1050. -/
theorem C8_witness :
    1120 ≤ max ((shake cfg0 { init with now := 1000 } 120).shakeEndAt.getD 0)
      ((shake cfg0 { init with now := 1000 } 120).now + max 140 (max 20 cfg0.shakeDecayMs)) := by
  exact (C8_theorem cfg0).2.1 (shake cfg0 { init with now := 1000 } 120) 140 1120 (by decide)

/-- Claim C10 (implicit): when the decoded sprite data for a kind has zero
frames — in particular when the scene-description text declares no regions —
`playSpriteAnim` returns after the cache update without rendering any
decoration and without scheduling any frame timer. -/
theorem C10_theorem :
    (∀ d : SceneDesc, d.atlas = [] → (decodeScene d).frames = []) ∧
    (∀ (s : Sys) (k : EffectKind) (a : SceneDesc) (data : SpriteData),
      (ensureSpriteData s.spriteCache k a).get k = some data →
      data.frames = [] →
      playSpriteAnim s k a = { s with spriteCache := ensureSpriteData s.spriteCache k a }) := by
  constructor
  · intro d h
    simp [decodeScene, h, buildAtlasMap, mapGet, List.filterMap_eq_nil_iff]
  · intro s k a data h1 h2
    simp only [playSpriteAnim]
    rw [h1]
    simp [h2]

/-- Witness for C10 on the empty asset: `playSpriteAnim` only updates the
cache; no render is emitted, no sprite timer appears, the decoration layer
is untouched. -/
theorem C10_witness :
    playSpriteAnim init .blip { atlas := [], order := none, speed := none } =
      { init with
        spriteCache :=
          ensureSpriteData init.spriteCache .blip { atlas := [], order := none, speed := none } } := by
  exact C10_theorem.2 init .blip _ (decodeScene { atlas := [], order := none, speed := none })
    (by decide) (C10_theorem.1 _ rfl)

end EffectManager

namespace EffectManager

/-- Counterexample for C1 as stated: an accepted blip at t=1000 sets
`lastBlipAt = 1000`; `clearAllDecorations` at t=1005 resets the buffers and
counts but not `lastBlipAt`; the subsequent blip at t=1010 is therefore
rejected by the rate limiter (buffer stays empty, `lastBlipAt` stays 1000),
whereas with no prior history the same fire at t=1010 is accepted — the
post-clear view does not behave as if no prior history existed. -/
theorem C1_counterexample :
    cexC1a.es.lastBlipAt = 1000 ∧
    cexC1b.es.buffers.get .blip = [] ∧
    cexC1b.es.activeDecorations.get .blip = 0 ∧
    cexC1b.es.lastBlipAt = 1000 ∧
    cexC1c.es.buffers.get .blip = [] ∧
    cexC1c.es.lastBlipAt = 1000 ∧
    (fireB init 1010).es.lastBlipAt = 1010 ∧
    ((fireB init 1010).es.buffers.get .blip).length = 1 := by
  decide

/-- Claim C1 as amended: `clearAllDecorations` zeroes every active count,
empties every buffer and cancels every combo animation timer (both the
stored handle and the scheduled tick callback); but it leaves `lastFireAt`
(`lastBlipAt`/`lastBoomAt`), the sprite-run timers, the shake state and the
pending TTL one-shots untouched, so a subsequent fire is rate-limited
against the last accepted fire from before the clear: it is accepted exactly
when `minInterval` has elapsed since that pre-clear fire, not
unconditionally. -/
theorem C1_theorem (cfg : Config) (assets : KindMap SceneDesc) (s : Sys)
    (now now2 : Nat) (flag : Bool) (hr : Reachable cfg assets s) :
    (∀ k, (clearAllDecorations s now).es.activeDecorations.get k = 0) ∧
    (∀ k, (clearAllDecorations s now).es.buffers.get k = []) ∧
    (∀ k, (clearAllDecorations s now).es.animTimers.get k = false) ∧
    (∀ k, (clearAllDecorations s now).animSched.get k = 0) ∧
    (clearAllDecorations s now).es.lastBlipAt = s.es.lastBlipAt ∧
    (clearAllDecorations s now).es.lastBoomAt = s.es.lastBoomAt ∧
    (clearAllDecorations s now).spriteMap = s.spriteMap ∧
    (clearAllDecorations s now).shakeTimer = s.shakeTimer ∧
    (clearAllDecorations s now).shakeEndAt = s.shakeEndAt ∧
    (clearAllDecorations s now).ttlPending = s.ttlPending ∧
    ((showBlip cfg assets (clearAllDecorations s now) now2 flag).es.lastBlipAt =
      if 20 ≤ now2 - s.es.lastBlipAt then now2 else s.es.lastBlipAt) := by
  have hg := goodSys_clearAll now (reachable_goodSys hr)
  have htimers : ∀ k, (clearAllDecorations s now).es.animTimers.get k = false := by
    intro k
    simp [clearAllDecorations]
  refine ⟨?_, ?_, htimers, ?_, ?_, ?_, ?_, ?_, ?_, ?_, ?_⟩
  · intro k
    simp [clearAllDecorations]
  · intro k
    simp [clearAllDecorations]
  · intro k
    have := hg.2.2.1 k
    rw [htimers k] at this
    simpa using this
  · simp [clearAllDecorations]
  · simp [clearAllDecorations]
  · simp [clearAllDecorations]
  · simp [clearAllDecorations]
  · simp [clearAllDecorations]
  · simp [clearAllDecorations]
  · rw [showBlip_lastBlipAt]
    have hlast : (clearAllDecorations s now).es.lastBlipAt = s.es.lastBlipAt := by
      simp [clearAllDecorations]
    rw [hlast]

/-- Witness for C1's amended statement on the concrete trace: the clear at
t=1005 keeps `lastBlipAt = 1000`, and the fire at t=1010 is rejected by the
rate limiter exactly as the amended claim predicts. -/
theorem C1_witness :
    (∀ k, (clearAllDecorations cexC1a 1005).es.activeDecorations.get k = 0) ∧
    (clearAllDecorations cexC1a 1005).es.lastBlipAt = cexC1a.es.lastBlipAt ∧
    ((showBlip cfg0 assets0 (clearAllDecorations cexC1a 1005) 1010 false).es.lastBlipAt =
      if 20 ≤ 1010 - cexC1a.es.lastBlipAt then 1010 else cexC1a.es.lastBlipAt) := by
  have h := C1_theorem cfg0 assets0 cexC1a 1005 1010 false
    (Reachable.step Reachable.init (Step.blipFire init 1000 false (by decide)))
  exact ⟨h.1, h.2.2.2.2.1, h.2.2.2.2.2.2.2.2.2.2⟩

end EffectManager

namespace EffectManager

/-- Reachability of the C2 trace by legal events from the fresh state. -/
theorem cexC2pre_reachable : Reachable cfg0 assets0 cexC2pre := by
  have h1 := Reachable.step Reachable.init
    (@Step.blipFire cfg0 assets0 init 1000 false (by decide))
  have h2 := Reachable.step h1 (Step.blipFire _ 1020 false (by decide))
  have h3 := Reachable.step h2 (Step.blipFire _ 1040 false (by decide))
  have h4 := Reachable.step h3 (Step.blipFire _ 1060 false (by decide))
  have h5 := Reachable.step h4 (Step.blipFire _ 1080 false (by decide))
  have h6 := Reachable.step h5 (Step.clearAll _ 1100 (by decide))
  have h7 := Reachable.step h6 (Step.blipFire _ 1120 false (by decide))
  have h8 := Reachable.step h7 (Step.blipFire _ 1140 false (by decide))
  have h9 := Reachable.step h8 (Step.blipFire _ 1160 false (by decide))
  have h10 := Reachable.step h9 (Step.blipFire _ 1180 false (by decide))
  have h11 := Reachable.step h10 (Step.blipFire _ 1200 false (by decide))
  have h12 := Reachable.step h11 (Step.ttl _ .blip 0 1400 1400 (by decide) (by decide) (by decide))
  have h13 := Reachable.step h12 (Step.ttl _ .blip 1 1420 1420 (by decide) (by decide) (by decide))
  have h14 := Reachable.step h13 (Step.ttl _ .blip 2 1440 1440 (by decide) (by decide) (by decide))
  have h15 := Reachable.step h14 (Step.ttl _ .blip 3 1460 1460 (by decide) (by decide) (by decide))
  have h16 := Reachable.step h15 (Step.ttl _ .blip 4 1480 1480 (by decide) (by decide) (by decide))
  exact Reachable.step h16 (Step.blipFire _ 1500 false (by decide))

/-- Counterexample for C2 as stated ("never decremented for an entry that
was removed by some other path"): in the reachable trace `cexC2pre`, entry 5
was admitted at t=1120 (visible in `cexC2mid`) and later removed by FIFO
eviction when entry 10 was pushed at t=1500 — its TTL one-shot (due at
t=1520) is still pending.  When that stale one-shot fires it misses the
buffer (which is unchanged) yet still decrements `activeCount[blip]` from 1
to 0: the code decrements once per admitted entry regardless of how the
entry left the buffer. -/
theorem C2_counterexample :
    Reachable cfg0 assets0 cexC2pre ∧
    (cexC2mid.es.buffers.get .blip).map Entry.id = [5, 6, 7, 8, 9] ∧
    (cexC2pre.es.buffers.get .blip).map Entry.id = [6, 7, 8, 9, 10] ∧
    (EffectKind.blip, 5, 1520) ∈ cexC2pre.ttlPending ∧
    cexC2pre.es.activeDecorations.get .blip = 1 ∧
    (ttlFire cexC2pre .blip 5 1520).es.activeDecorations.get .blip = 0 ∧
    (ttlFire cexC2pre .blip 5 1520).es.buffers.get .blip = cexC2pre.es.buffers.get .blip :=
  ⟨cexC2pre_reachable, by decide, by decide, by decide, by decide, by decide, by decide⟩

/-- Claim C2 as amended: for every reachable state, `activeCount[kind]` lies
in `[0, MAX_DECORATIONS_PER_TYPE]`; an admission attempt at the maximum is
rejected silently with the whole state (in particular the buffer) unchanged;
each admitted entry's TTL callback fires at most once (its pending record is
consumed and no pending record with that identity remains); and when it
fires it decrements `activeCount[kind]` by one floored at zero — also when
the entry has already left the buffer by FIFO eviction or a clear, rather
than "never for an entry that was removed by some other path". -/
theorem C2_theorem (cfg : Config) (assets : KindMap SceneDesc) :
    (∀ s : Sys, Reachable cfg assets s → ∀ k,
      0 ≤ s.es.activeDecorations.get k ∧
      s.es.activeDecorations.get k ≤ MAX_DECORATIONS_PER_TYPE) ∧
    (∀ (s : Sys) (k : EffectKind), ¬ canAddDecoration s k = true →
      applyOnce cfg s k = s) ∧
    (∀ (s : Sys) (k : EffectKind) (eid now : Nat),
      (ttlFire s k eid now).es.activeDecorations.get k =
        max 0 (s.es.activeDecorations.get k - 1)) ∧
    (∀ s : Sys, Reachable cfg assets s → ∀ (k : EffectKind) (eid t now : Nat),
      (k, eid, t) ∈ s.ttlPending →
      ∀ t2, (k, eid, t2) ∉ (ttlFire s k eid now).ttlPending) := by
  refine ⟨?_, ?_, ?_, ?_⟩
  · intro s hr k
    exact (reachable_goodSys hr).1 k
  · intro s k hc
    exact applyOnce_not cfg s k hc
  · intro s k eid now
    exact ttlFire_active_get s k eid now
  · intro s hr k eid t now hm t2
    rw [ttlFire_pending s k eid now]
    exact not_mem_eraseP_pending s.ttlPending k eid t (reachable_goodSys hr).2.2.2.1 hm t2

/-- Witness for C2's amended statement: the bounds at the fresh state, the
silent rejection at a full count (state `cexC2mid`, count 5), the floored
decrement on the concrete stale one-shot of entry 5, and the consumption of
that pending record. -/
theorem C2_witness :
    (0 ≤ init.es.activeDecorations.get .blip ∧
      init.es.activeDecorations.get .blip ≤ MAX_DECORATIONS_PER_TYPE) ∧
    applyOnce cfg0 cexC2mid .blip = cexC2mid ∧
    ((ttlFire cexC2pre .blip 5 1520).es.activeDecorations.get .blip =
      max 0 (cexC2pre.es.activeDecorations.get .blip - 1)) ∧
    ((EffectKind.blip, 5, 1520) ∉ (ttlFire cexC2pre .blip 5 1520).ttlPending) := by
  refine ⟨(C2_theorem cfg0 assets0).1 init Reachable.init .blip, ?_, ?_, ?_⟩
  · exact (C2_theorem cfg0 assets0).2.1 cexC2mid .blip (by decide)
  · exact (C2_theorem cfg0 assets0).2.2.1 cexC2pre .blip 5 1520
  · exact (C2_theorem cfg0 assets0).2.2.2 cexC2pre cexC2pre_reachable .blip 5 1520 1520
      (by decide) 1520

end EffectManager

namespace EffectManager

/-- Counterexample for C6 as stated: after an accepted blip at t=1000 a blip
sprite run is active (frame 0 rendered on the shared layer, a frame timer
pending with next index 1).  The cross-kind clear that every entry point
performs — `clearSpriteAnim(editor)` with no kind — cancels the timers and
deletes the run map, but the rendered decoration is NOT cleared: the
`setDecorations(animDecoration, [])` call of `clearSpriteAnim` is guarded by
`if (kind)` and the entry points never pass a kind. -/
theorem C6_counterexample :
    cexC6a.spriteMap.isSome = true ∧
    (cexC6a.spriteMap.getD (KindMap.const none)).get .blip = some 1 ∧
    cexC6a.animDeco = some (.blip, 0) ∧
    cexC6b.spriteMap = none ∧
    cexC6b.animDeco = some (.blip, 0) := by
  decide

/-- Claim C6 as amended: every blip/boom/newline invocation first calls
`clearSpriteAnim` with no kind, which cancels the frame timers of every
kind's sprite run on that view and deletes the run map — but does not clear
the rendered decoration (that happens only in the dead kind-specific
branch).  The stale frame is instead replaced when the new run synchronously
renders its own first frame: all kinds share the single `animDecoration`
layer rendered with exactly one instance, so sprite effects of different
kinds still never accumulate or overlap on one view. -/
theorem C6_theorem :
    (∀ s : Sys,
      (clearSpriteAnim s none).spriteMap = none ∧
      (clearSpriteAnim s none).animDeco = s.animDeco ∧
      (clearSpriteAnim s none).renders = s.renders) ∧
    (∀ (s : Sys) (k : EffectKind) (a : SceneDesc) (data : SpriteData),
      (ensureSpriteData s.spriteCache k a).get k = some data →
      data.frames ≠ [] →
      (playSpriteAnim s k a).animDeco = some (k, 0) ∧
      (playSpriteAnim s k a).renders = s.renders ++ [RenderCall.sprite k 0] ∧
      ((playSpriteAnim s k a).spriteMap.getD (KindMap.const none)).get k = some 1 ∧
      (playSpriteAnim s k a).spriteMap.isSome = true) := by
  constructor
  · intro s
    unfold clearSpriteAnim
    cases hm : s.spriteMap <;> simp [hm]
  · intro s k a data h1 h2
    have hemp : data.frames.isEmpty = false := by simpa [List.isEmpty_iff] using h2
    simp only [playSpriteAnim]
    rw [h1]
    simp [hemp]

/-- Witness for C6's amended statement: on the one-frame blip asset the new
run renders its first frame into the shared layer (replacing whatever was
there) and leaves a single frame timer. -/
theorem C6_witness :
    (playSpriteAnim init .blip descOneFrame).animDeco = some (.blip, 0) ∧
    (playSpriteAnim init .blip descOneFrame).renders =
      init.renders ++ [RenderCall.sprite .blip 0] ∧
    ((playSpriteAnim init .blip descOneFrame).spriteMap.getD (KindMap.const none)).get .blip =
      some 1 := by
  have h := C6_theorem.2 init .blip descOneFrame (decodeScene descOneFrame)
    (by simp [ensureSpriteData, init]) (by decide)
  exact ⟨h.1, h.2.1, h.2.2.1⟩

/-- Claim C9: for every view and kind there is at most one combo animation
timer at any instant — in every reachable state the number of scheduled tick
callbacks is exactly one when the handle is stored and zero otherwise, and
`ensureAnimating` is a no-op when a handle exists; the tick loop
self-terminates (clears the handle, consumes its callback, emits nothing and
does not reschedule) on the first tick that finds the buffer empty, and
while the buffer is non-empty it re-renders and keeps exactly its one
callback; and the timer never resumes spontaneously: the only steps that
turn the handle on are fires that leave the buffer non-empty. -/
theorem C9_theorem (cfg : Config) (assets : KindMap SceneDesc) :
    (∀ s : Sys, Reachable cfg assets s → ∀ k,
      s.animSched.get k = if s.es.animTimers.get k then 1 else 0) ∧
    (∀ (s : Sys) (k : EffectKind), s.es.animTimers.get k = true →
      ensureAnimating s k = s) ∧
    (∀ (s : Sys) (k : EffectKind) (now : Nat), s.es.buffers.get k = [] →
      (animTick s k now).es.animTimers.get k = false ∧
      (animTick s k now).animSched.get k = s.animSched.get k - 1 ∧
      (animTick s k now).renders = s.renders) ∧
    (∀ (s : Sys) (k : EffectKind) (now : Nat), s.es.buffers.get k ≠ [] →
      1 ≤ s.animSched.get k →
      (animTick s k now).animSched.get k = s.animSched.get k ∧
      (animTick s k now).es.animTimers = s.es.animTimers ∧
      (animTick s k now).renders =
        s.renders ++ [RenderCall.combo k ((s.es.buffers.get k).map Entry.id)]) ∧
    (∀ {s t : Sys} (k : EffectKind), Step cfg assets s t →
      s.es.animTimers.get k = false → t.es.animTimers.get k = true →
      t.es.buffers.get k ≠ []) := by
  refine ⟨?_, ?_, ?_, ?_, ?_⟩
  · intro s hr k
    exact (reachable_goodSys hr).2.2.1 k
  · intro s k h
    simp [ensureAnimating, h]
  · intro s k now h
    exact animTick_empty s k now h
  · intro s k now h hl
    exact animTick_nonempty s k now h hl
  · intro s t k hstep h0 h1
    exact step_timer_on k hstep h0 h1

/-- Witness for C9 at concrete inputs: the one-timer invariant at the fresh
state, the `ensureAnimating` no-op on a stored handle, the self-termination
of a tick on an empty buffer, and the non-empty buffer guaranteed by the
step that turns the timer on. -/
theorem C9_witness :
    (init.animSched.get .blip = if init.es.animTimers.get .blip then 1 else 0) ∧
    (ensureAnimating cexC1a .blip = cexC1a) ∧
    ((animTick init .blip 50).es.animTimers.get .blip = false ∧
      (animTick init .blip 50).animSched.get .blip = init.animSched.get .blip - 1 ∧
      (animTick init .blip 50).renders = init.renders) ∧
    (fireB init 1000).es.buffers.get .blip ≠ [] := by
  refine ⟨(C9_theorem cfg0 assets0).1 init Reachable.init .blip, ?_, ?_, ?_⟩
  · exact (C9_theorem cfg0 assets0).2.1 cexC1a .blip (by decide)
  · exact (C9_theorem cfg0 assets0).2.2.1 init .blip 50 (by decide)
  · exact (C9_theorem cfg0 assets0).2.2.2.2 .blip
      (Step.blipFire init 1000 false (by decide)) (by decide) (by decide)

end EffectManager
